import Mathlib

/-!
# BLE advertisement controller: command queue and transmission scheduler

A shallow embedding of `components/ble_adv_controller/ble_adv_controller.cpp`
(`BleAdvController::enqueue`, `BleAdvController::on_raw_inject`,
`BleAdvController::loop`, `BleAdvSelect::control`, `BleAdvSelect::sub_init`,
`BleAdvEntity::command`) together with the properties of the queue, of the
scheduler and of the entities that follow from the code.

Conventions of the embedding.

* The controller object is a record; every member function is a function
  from the record (and the call arguments) to the new record.
* Unsigned 32-bit values are natural numbers; a cast `(uint32_t) x` is
  `to_uint32 x = x % 2^32` and the 32-bit sum is reduced explicitly.
* Calls that leave the controller (the encoder, the radio handler, the
  warning log) are appended to the field `calls`, in program order, so that
  "is invoked exactly once" and "is not invoked" are statements about that
  list.
* The values the environment returns (`millis()`, the handle returned by
  `add_to_advertiser`) are arguments of `loop`.
-/

namespace bleadvcontroller

/-! ## Data model -/

/-- Modelled from the spec: the command kind enumeration `CommandType`, declared
in the header `ble_adv_controller.h`, which is not part of the sources; the
spec gives the kinds PAIR, UNPAIR and CUSTOM. -/
inductive CommandType where
  | PAIR
  | UNPAIR
  | CUSTOM
  deriving DecidableEq, Repr

/-- Modelled from the spec: the class `Command` of the absent header: the kind
`main_cmd_`, the opcode `cmd_` and the four argument bytes `args_`. -/
structure Command where
  main_cmd_ : CommandType
  cmd_ : Nat
  args_ : List Nat
  deriving DecidableEq, Repr

/-- Modelled from the spec: the controller parameters `ControllerParam_t` of the
absent header: device identifier, rolling counter and device index. -/
structure ControllerParam_t where
  id_ : Nat
  tx_count_ : Nat
  index_ : Nat
  deriving DecidableEq, Repr

/-- Modelled from the spec: one encoded advertisement (`BleAdvParam` in the
absent header): the payload bytes and the on-air duration in milliseconds. -/
structure BleAdvParam where
  buf_ : List Nat
  duration_ : Nat
  deriving DecidableEq, Repr

/-- Modelled from the spec: the queue item `QueueItem` of the absent header: the
kind of the originating command and the encoded payloads. Its constructor
`QueueItem(CommandType)` leaves `params_` empty. -/
structure QueueItem where
  cmd_type_ : CommandType
  params_ : List BleAdvParam
  deriving DecidableEq, Repr

/-- Modelled from the spec: the encoder interface consumed by the controller
(`cur_encoder_` points to one). `encode` receives the output vector, the
command and the controller parameters by reference; it returns the new output
vector and the new controller parameters. -/
structure BleAdvEncoder where
  get_id : String
  is_supported : Command → Bool
  encode : List BleAdvParam → Command → ControllerParam_t → List BleAdvParam × ControllerParam_t

/-- Calls that leave the controller, recorded in program order. -/
inductive Call where
  | log_warning
  | is_supported (cmd : Command)
  | encode (cmd : Command) (cont : ControllerParam_t)
  | add_to_advertiser (params : List BleAdvParam)
  | remove_from_advertiser (adv_id : Nat)
  deriving DecidableEq, Repr

/-- The number entity `number_duration_`; `state` is its published value (a
whole number of milliseconds). -/
structure BleAdvNumber where
  state : Nat
  deriving DecidableEq, Repr

/-- The members of `BleAdvController` read or written by `enqueue`,
`on_raw_inject` and `loop`, and the record of outgoing calls. The class is
declared in the absent header; the members are those the source file names.
`adv_start_time_` holds a value of `millis()`, an unsigned 32-bit count of
milliseconds, and 0 while no transmission is active; `adv_id_` holds the
handle as `add_to_advertiser` returned it; the durations are whole numbers of
milliseconds. -/
structure BleAdvController where
  cur_encoder_ : Option BleAdvEncoder
  params_ : ControllerParam_t
  number_duration_ : BleAdvNumber
  max_tx_duration_ : Nat
  seq_duration_ : Nat
  commands_ : List QueueItem
  adv_start_time_ : Nat
  adv_id_ : Nat
  calls : List Call

/-! ## Helpers for the C++ operations -/

/-- The cast `(uint32_t) x`. -/
def to_uint32 (n : Nat) : Nat := n % 2 ^ 32

/-- The update `l.back() = f (l.back())` of a non-empty sequence (no effect on
an empty one). -/
def modify_back {α : Type} (f : α → α) : List α → List α
  | [] => []
  | [x] => [f x]
  | x :: y :: r => x :: modify_back f (y :: r)

/-- The call `commands_.remove_if(pred)` of `std::list`: drops the items that
satisfy `pred` and keeps the others in order. -/
def remove_if (pred : QueueItem → Bool) (l : List QueueItem) : List QueueItem :=
  l.filter (fun q => !pred q)

/-- Modelled from the spec: the accessor `get_min_tx_duration()` of the absent
header. `set_min_tx_duration` stores the minimum transmission duration in
`number_duration_`; the accessor reads it back as an unsigned 32-bit value. -/
def get_min_tx_duration (s : BleAdvController) : Nat :=
  to_uint32 s.number_duration_.state

/-- The value of a hexadecimal digit. -/
def hex_digit (c : Char) : Option Nat :=
  if 48 ≤ c.toNat ∧ c.toNat ≤ 57 then some (c.toNat - 48)
  else if 97 ≤ c.toNat ∧ c.toNat ≤ 102 then some (c.toNat - 87)
  else if 65 ≤ c.toNat ∧ c.toNat ≤ 70 then some (c.toNat - 55)
  else none

/-- Decoding of a sequence of hexadecimal digits, two digits per byte. -/
def parse_hex : List Char → Option (List Nat)
  | [] => some []
  | [_] => none
  | a :: b :: r =>
    match hex_digit a, hex_digit b, parse_hex r with
    | some x, some y, some t => some ((16 * x + y) :: t)
    | _, _, _ => none

/-- Modelled from the spec: `BleAdvParam::from_hex_string` of the absent header,
"parses a hex string directly into a raw payload". A string that is not an
even number of hexadecimal digits leaves the parameter as it was. -/
def BleAdvParam.from_hex_string (raw : String) (p : BleAdvParam) : BleAdvParam :=
  match parse_hex raw.toList with
  | some bytes => { p with buf_ := bytes }
  | none => p

/-! ## The member functions -/

/-- The function `BleAdvController::on_raw_inject`. `fresh` is the
default-constructed `BleAdvParam` that `params_.emplace_back()` creates. -/
def on_raw_inject (fresh : BleAdvParam) (raw : String) (s : BleAdvController) :
    BleAdvController :=
  let q1 := s.commands_ ++ [QueueItem.mk CommandType.CUSTOM []]
  let q2 := modify_back (fun q => { q with params_ := q.params_ ++ [fresh] }) q1
  let q3 := modify_back
    (fun q => { q with params_ := modify_back (BleAdvParam.from_hex_string raw) q.params_ }) q2
  { s with commands_ := q3 }

/-- The duration written to every parameter of a new item by `enqueue`. -/
def enqueue_duration (s : BleAdvController) : Nat :=
  let use_seq_duration :=
    decide (s.seq_duration_ > 0) && decide (s.seq_duration_ < get_min_tx_duration s)
  if use_seq_duration then to_uint32 s.seq_duration_ else to_uint32 (get_min_tx_duration s)

/-- The function `BleAdvController::enqueue`: the returned flag and the new
controller. -/
def enqueue (cmd : Command) (s : BleAdvController) : Bool × BleAdvController :=
  match s.cur_encoder_ with
  | none => (false, { s with calls := s.calls ++ [Call.log_warning] })
  | some enc =>
    let s0 := { s with calls := s.calls ++ [Call.is_supported cmd] }
    if !enc.is_supported cmd then
      (false, { s0 with calls := s0.calls ++ [Call.log_warning] })
    else
      let s1 :=
        if s0.params_.tx_count_ > 120 then
          { s0 with params_ := { s0.params_ with tx_count_ := 0 } }
        else s0
      let s2 :=
        if cmd.main_cmd_ ≠ CommandType.CUSTOM then
          { s1 with commands_ := remove_if (fun q => q.cmd_type_ == cmd.main_cmd_) s1.commands_ }
        else s1
      let s3 := { s2 with commands_ := s2.commands_ ++ [QueueItem.mk cmd.main_cmd_ []] }
      let encoded (q : QueueItem) := enc.encode q.params_ cmd s3.params_
      let q4 := modify_back (fun q => { q with params_ := (encoded q).1 }) s3.commands_
      let p4 :=
        match s3.commands_.getLast? with
        | some q => (encoded q).2
        | none => s3.params_
      let s4 := { s3 with
        commands_ := q4
        params_ := p4
        calls := s3.calls ++ [Call.encode cmd s3.params_] }
      let d := enqueue_duration s4
      let q5 := modify_back
        (fun q => { q with params_ := q.params_.map (fun param => { param with duration_ := d }) })
        s4.commands_
      (true, { s4 with commands_ := q5 })

/-- The window `duration` computed by `loop` while a transmission is active. -/
def loop_duration (s : BleAdvController) : Nat :=
  if s.commands_.isEmpty then to_uint32 s.max_tx_duration_
  else to_uint32 s.number_duration_.state

/-- The function `BleAdvController::loop`. `now` is the value returned by
`millis()`, `handle` the value `add_to_advertiser` returns if it is called. -/
def loop (now handle : Nat) (s : BleAdvController) : BleAdvController :=
  if s.adv_start_time_ = 0 then
    match s.commands_ with
    | [] => s
    | item :: rest =>
      { s with
        adv_id_ := handle
        adv_start_time_ := now
        commands_ := rest
        calls := s.calls ++ [Call.add_to_advertiser item.params_] }
  else
    if now > (s.adv_start_time_ + loop_duration s) % 2 ^ 32 then
      { s with
        adv_start_time_ := 0
        calls := s.calls ++ [Call.remove_from_advertiser s.adv_id_] }
    else s

/-! ## Fixtures used to instantiate the theorems -/

/-- An encoder that supports every command: it appends one payload made of the
rolling counter and the opcode, and increments the counter. -/
def demo_encoder : BleAdvEncoder where
  get_id := "demo"
  is_supported := fun _ => true
  encode := fun out cmd cont =>
    (out ++ [BleAdvParam.mk [cont.tx_count_, cmd.cmd_] 7],
      { cont with tx_count_ := cont.tx_count_ + 1 })

/-- An encoder that supports only the PAIR command. -/
def pair_only_encoder : BleAdvEncoder where
  get_id := "pair_only"
  is_supported := fun cmd => cmd.main_cmd_ == CommandType.PAIR
  encode := fun out cmd cont => (out ++ [BleAdvParam.mk [cmd.cmd_] 9], cont)

/-- The command built by `Command cmd(kind)` with a zero opcode and arguments. -/
def plain_command (kind : CommandType) : Command := Command.mk kind 0 [0, 0, 0, 0]

/-- A controller with the given encoder, an empty queue and no transmission:
minimum duration 100 ms, maximum 3000 ms, sequencing duration 50 ms. -/
def idle_controller (enc : Option BleAdvEncoder) : BleAdvController where
  cur_encoder_ := enc
  params_ := ControllerParam_t.mk 4660 0 1
  number_duration_ := BleAdvNumber.mk 100
  max_tx_duration_ := 3000
  seq_duration_ := 50
  commands_ := []
  adv_start_time_ := 0
  adv_id_ := 0
  calls := []

/-! ## Descriptions of the result of an accepted `enqueue` -/

/-- The controller parameters after the reset of the rolling counter. -/
def rolled_params (p : ControllerParam_t) : ControllerParam_t :=
  { p with tx_count_ := if p.tx_count_ > 120 then 0 else p.tx_count_ }

/-- The queue after the eviction step of `enqueue` for a command of kind `k`. -/
def kept_items (k : CommandType) (l : List QueueItem) : List QueueItem :=
  if k ≠ CommandType.CUSTOM then l.filter (fun q => decide (q.cmd_type_ ≠ k)) else l

/-- The item appended by an accepted `enqueue`. -/
def new_item (enc : BleAdvEncoder) (cmd : Command) (s : BleAdvController) : QueueItem :=
  QueueItem.mk cmd.main_cmd_
    ((enc.encode [] cmd (rolled_params s.params_)).1.map
      (fun param => { param with duration_ := enqueue_duration s }))

/-! ## Traces of calls -/

/-- One call made on the controller from outside. -/
inductive Op where
  | enqueue (cmd : Command)
  | on_raw_inject (fresh : BleAdvParam) (raw : String)
  | loop (now handle : Nat)

/-- The controller after one call. -/
def step (s : BleAdvController) : Op → BleAdvController
  | Op.enqueue cmd => (enqueue cmd s).2
  | Op.on_raw_inject fresh raw => on_raw_inject fresh raw s
  | Op.loop now handle => loop now handle s

/-- The controller after a sequence of calls, made in order. -/
def run (ops : List Op) (s : BleAdvController) : BleAdvController :=
  ops.foldl step s

/-- The item created by the most recent accepted `enqueue` of kind `k` in the
sequence of calls `ops` made from the controller `s`: the item at the tail of
the queue right after that call. `acc` is the value before the first call. -/
def latest_created (k : CommandType) :
    List Op → BleAdvController → Option QueueItem → Option QueueItem
  | [], _, acc => acc
  | Op.enqueue cmd :: ops, s, acc =>
    latest_created k ops (step s (Op.enqueue cmd))
      (if (enqueue cmd s).1 = true ∧ cmd.main_cmd_ = k then
        (enqueue cmd s).2.commands_.getLast?
      else acc)
  | op :: ops, s, acc => latest_created k ops (step s op) acc

/-- The queue `l` holds at most one item of kind `k`, and a pending item of
kind `k` is the recorded item `acc`. -/
def pending_ok (k : CommandType) (l : List QueueItem) (acc : Option QueueItem) : Prop :=
  (l.filter (fun q => decide (q.cmd_type_ = k))).length ≤ 1 ∧
  ∀ q ∈ l, q.cmd_type_ = k → acc = some q

/-- A sequence of calls: PAIR, a raw injection, UNPAIR, a tick, PAIR with a
different opcode, a raw injection. -/
def demo_trace : List Op :=
  [Op.enqueue (plain_command CommandType.PAIR),
    Op.on_raw_inject (BleAdvParam.mk [] 100) "AABBCC",
    Op.enqueue (plain_command CommandType.UNPAIR),
    Op.loop 5 1,
    Op.enqueue (Command.mk CommandType.PAIR 9 [0, 0, 0, 0]),
    Op.on_raw_inject (BleAdvParam.mk [] 100) "0102"]

/-! ## Radio calls and ticks -/

/-- The calls that reach the radio handler. -/
def Call.is_radio : Call → Bool
  | Call.add_to_advertiser _ => true
  | Call.remove_from_advertiser _ => true
  | _ => false

/-- The payload lists passed to `add_to_advertiser`, in call order. -/
def started : List Call → List (List BleAdvParam)
  | [] => []
  | Call.add_to_advertiser params :: r => params :: started r
  | _ :: r => started r

/-- The number of radio starts in the record of calls that no radio stop has
matched yet: the advertisements on air. -/
def on_air (calls : List Call) : Nat :=
  calls.foldl
    (fun n c =>
      match c with
      | Call.add_to_advertiser _ => n + 1
      | Call.remove_from_advertiser _ => n - 1
      | _ => n)
    0

/-- The controller after a sequence of `loop` calls; each tick is the pair of
the clock value and the handle the radio would return. -/
def run_loops (ticks : List (Nat × Nat)) (s : BleAdvController) : BleAdvController :=
  ticks.foldl (fun u t => loop t.1 t.2 u) s

/-- The clock value of a `loop` call is not 0 (true of the other calls). -/
def Op.clock_nonzero : Op → Prop
  | Op.loop now _ => now ≠ 0
  | _ => True

/-- The elapsed time of the spec's wrap-safe test: `now - start_time` as an
unsigned 32-bit subtraction. -/
def elapsed_wrap_safe (now start_time : Nat) : Nat :=
  (now + 2 ^ 32 - start_time) % 2 ^ 32

/-! ## The select entity -/

/-- Modelled from the spec: the select entity `BleAdvSelect` of the absent
header together with the persistent option store it uses, which is outside
the repository ("store/load a single 32-bit hash ... keyed by a stable
per-entity identifier; on restore-miss, the default remains in effect").
`state` is the selected option, `options` the list `traits.get_options()`,
and `rtc_` the content of the store slot of the entity: `none` while nothing
is stored, so that `load` fails, and `some h` once `save` has stored `h`. -/
structure BleAdvSelect where
  state : String
  options : List String
  rtc_ : Option Nat
  deriving DecidableEq, Repr

/-- The function `BleAdvSelect::control`. `fnv1_hash` is the hash function of
the framework; its result is an unsigned 32-bit value. -/
def BleAdvSelect.control (fnv1_hash : String → Nat) (value : String) (sel : BleAdvSelect) :
    BleAdvSelect :=
  let sel1 := { sel with state := value }
  let hash_value := to_uint32 (fnv1_hash value)
  { sel1 with rtc_ := some hash_value }

/-- The loop of `BleAdvSelect::sub_init` over the options: the option at which
the loop assigns `state` and returns, if there is one. -/
def sub_init_scan (fnv1_hash : String → Nat) (restored : Nat) : List String → Option String
  | [] => none
  | opt :: rest =>
    if to_uint32 (fnv1_hash opt) = restored then some opt
    else sub_init_scan fnv1_hash restored rest

/-- The function `BleAdvSelect::sub_init`. -/
def BleAdvSelect.sub_init (fnv1_hash : String → Nat) (sel : BleAdvSelect) : BleAdvSelect :=
  match sel.rtc_ with
  | some restored =>
    match sub_init_scan fnv1_hash restored sel.options with
    | some opt => { sel with state := opt }
    | none => sel
  | none => sel

/-- A hash function for the instances: the sum of the character codes, so that
"ab" and "ba" collide. -/
def demo_hash (str : String) : Nat :=
  (str.toList.map Char.toNat).sum

/-- A select entity with the options "ab", "ba", "c", the state "ab" and
nothing stored. -/
def demo_select : BleAdvSelect where
  state := "ab"
  options := ["ab", "ba", "c"]
  rtc_ := none

/-! ## The entity command -/

/-- Modelled from the spec: the constructor `Command(CommandType)` of the absent
header. It sets the kind; the opcode and the four argument bytes take the
default values of the class, `dflt_cmd` and `dflt_args`. -/
def Command.construct (dflt_cmd : Nat) (dflt_args : List Nat) (cmd_type : CommandType) :
    Command :=
  Command.mk cmd_type dflt_cmd dflt_args

/-- The loop `for (i = 0; i < n; i++) cmd.args_[i] = args[i]` with `k`
iterations left at index `i`. An access outside `args` or outside the array
`args_` gives `none`. -/
def copy_args (args : List Nat) : Nat → Nat → Command → Option Command
  | 0, _, cmd => some cmd
  | k + 1, i, cmd =>
    match args[i]? with
    | none => none
    | some a =>
      if i < cmd.args_.length then
        copy_args args k (i + 1) { cmd with args_ := cmd.args_.set i a }
      else none

/-- The function `BleAdvEntity::command(CommandType, const std::vector<uint8_t> &)`;
`parent` is the controller `get_parent()` returns. The result is `none` if an
index is out of bounds. -/
def BleAdvEntity.command (dflt_cmd : Nat) (dflt_args : List Nat) (cmd_type : CommandType)
    (args : List Nat) (parent : BleAdvController) : Option (Bool × BleAdvController) :=
  let cmd := Command.construct dflt_cmd dflt_args cmd_type
  let n := min args.length 4
  match copy_args args n 0 cmd with
  | some cmd1 => some (enqueue cmd1 parent)
  | none => none

/-- The function `BleAdvEntity::command(CommandType, uint8_t, uint8_t)`. -/
def BleAdvEntity.command_values (dflt_cmd : Nat) (dflt_args : List Nat) (cmd : CommandType)
    (value1 value2 : Nat) (parent : BleAdvController) : Option (Bool × BleAdvController) :=
  BleAdvEntity.command dflt_cmd dflt_args cmd [value1, value2] parent

/-! ## Lemmas on the helpers -/

theorem modify_back_append_singleton {α : Type} (f : α → α) (l : List α) (x : α) :
    modify_back f (l ++ [x]) = l ++ [f x] := by
  induction l with
  | nil => rfl
  | cons a r ih =>
    cases r with
    | nil => rfl
    | cons b r2 =>
      have h : (a :: b :: r2) ++ [x] = a :: b :: (r2 ++ [x]) := rfl
      rw [h, modify_back]
      have h2 : b :: (r2 ++ [x]) = (b :: r2) ++ [x] := rfl
      rw [h2, ih]
      rfl

theorem remove_if_kind (k : CommandType) (l : List QueueItem) :
    remove_if (fun q => q.cmd_type_ == k) l = l.filter (fun q => decide (q.cmd_type_ ≠ k)) := by
  unfold remove_if
  congr 1
  funext q
  by_cases h : q.cmd_type_ = k <;> simp [h]

/-- Normal form of an accepted `enqueue`. -/
theorem enqueue_accepted (cmd : Command) (s : BleAdvController) (enc : BleAdvEncoder)
    (henc : s.cur_encoder_ = some enc) (hsup : enc.is_supported cmd = true) :
    enqueue cmd s =
      (true, { s with
        params_ := (enc.encode [] cmd (rolled_params s.params_)).2
        commands_ := kept_items cmd.main_cmd_ s.commands_ ++ [new_item enc cmd s]
        calls := s.calls ++ [Call.is_supported cmd, Call.encode cmd (rolled_params s.params_)] }) := by
  unfold enqueue
  rw [henc]
  simp only [hsup, Bool.not_true, Bool.false_eq_true, if_false]
  by_cases htx : s.params_.tx_count_ > 120 <;> by_cases hk : cmd.main_cmd_ = CommandType.CUSTOM <;>
    simp [htx, hk, modify_back_append_singleton, remove_if_kind, kept_items, new_item,
      rolled_params, enqueue_duration, get_min_tx_duration]

/-- Normal form of a rejected `enqueue` with an encoder selected. -/
theorem enqueue_unsupported (cmd : Command) (s : BleAdvController) (enc : BleAdvEncoder)
    (henc : s.cur_encoder_ = some enc) (hsup : enc.is_supported cmd = false) :
    enqueue cmd s =
      (false, { s with calls := s.calls ++ [Call.is_supported cmd, Call.log_warning] }) := by
  unfold enqueue
  rw [henc]
  simp [hsup]

/-- Normal form of `enqueue` without an encoder. -/
theorem enqueue_no_encoder (cmd : Command) (s : BleAdvController)
    (henc : s.cur_encoder_ = none) :
    enqueue cmd s = (false, { s with calls := s.calls ++ [Call.log_warning] }) := by
  unfold enqueue
  rw [henc]

theorem enqueue_cur_encoder (cmd : Command) (s : BleAdvController) :
    (enqueue cmd s).2.cur_encoder_ = s.cur_encoder_ := by
  cases henc : s.cur_encoder_ with
  | none => rw [enqueue_no_encoder cmd s henc]; exact henc
  | some enc =>
    cases hsup : enc.is_supported cmd with
    | false => rw [enqueue_unsupported cmd s enc henc hsup]; exact henc
    | true => rw [enqueue_accepted cmd s enc henc hsup]; exact henc

/-! ## The dispatcher: `enqueue` -/

/-- Claim C1. An accepted `enqueue` of a command whose kind `k` is not CUSTOM
returns true, and the new queue is the old queue without its items of kind
`k` (the others in their order) followed by one new item of kind `k`.
Starting from an empty queue with an encoder that supports every command,
enqueue(PAIR), enqueue(UNPAIR), enqueue(PAIR) leaves the kinds [UNPAIR, PAIR]. -/
theorem enqueue_non_custom_replaces (cmd : Command) (s : BleAdvController)
    (enc : BleAdvEncoder) (henc : s.cur_encoder_ = some enc)
    (hsup : enc.is_supported cmd = true) (hk : cmd.main_cmd_ ≠ CommandType.CUSTOM) :
    (enqueue cmd s).1 = true ∧
    (∃ item : QueueItem, item.cmd_type_ = cmd.main_cmd_ ∧
      (enqueue cmd s).2.commands_ =
        s.commands_.filter (fun q => decide (q.cmd_type_ ≠ cmd.main_cmd_)) ++ [item]) ∧
    (s.commands_ = [] → (∀ c, enc.is_supported c = true) →
      ∀ c1 c2 c3 : Command, c1.main_cmd_ = CommandType.PAIR →
        c2.main_cmd_ = CommandType.UNPAIR → c3.main_cmd_ = CommandType.PAIR →
        (enqueue c3 (enqueue c2 (enqueue c1 s).2).2).2.commands_.map QueueItem.cmd_type_ =
          [CommandType.UNPAIR, CommandType.PAIR]) := by
  refine ⟨?_, ?_, ?_⟩
  · rw [enqueue_accepted cmd s enc henc hsup]
  · refine ⟨new_item enc cmd s, rfl, ?_⟩
    rw [enqueue_accepted cmd s enc henc hsup]
    simp [kept_items, hk]
  · intro hempty hall c1 c2 c3 h1 h2 h3
    have e1 : (enqueue c1 s).2.cur_encoder_ = some enc := by
      rw [enqueue_cur_encoder]; exact henc
    have e2 : (enqueue c2 (enqueue c1 s).2).2.cur_encoder_ = some enc := by
      rw [enqueue_cur_encoder]; exact e1
    rw [enqueue_accepted c3 _ enc e2 (hall c3), enqueue_accepted c2 _ enc e1 (hall c2),
      enqueue_accepted c1 s enc henc (hall c1)]
    simp [kept_items, new_item, h1, h2, h3, hempty]

/-- Instance of C1: a queue [PAIR, UNPAIR, PAIR, CUSTOM] receives a PAIR command. -/
theorem enqueue_non_custom_replaces_witness :
    (let s : BleAdvController :=
      { idle_controller (some demo_encoder) with
        commands_ := [QueueItem.mk CommandType.PAIR [], QueueItem.mk CommandType.UNPAIR [],
          QueueItem.mk CommandType.PAIR [], QueueItem.mk CommandType.CUSTOM []] }
    (enqueue (plain_command CommandType.PAIR) s).1 = true ∧
    (enqueue (plain_command CommandType.PAIR) s).2.commands_ =
      [QueueItem.mk CommandType.UNPAIR [], QueueItem.mk CommandType.CUSTOM [],
        QueueItem.mk CommandType.PAIR [BleAdvParam.mk [0, 0] 50]]) ∧
    (enqueue (plain_command CommandType.PAIR)
      (enqueue (plain_command CommandType.UNPAIR)
        (enqueue (plain_command CommandType.PAIR)
          (idle_controller (some demo_encoder))).2).2).2.commands_.map QueueItem.cmd_type_ =
      [CommandType.UNPAIR, CommandType.PAIR] :=
  ⟨⟨(enqueue_non_custom_replaces (plain_command CommandType.PAIR)
      { idle_controller (some demo_encoder) with
        commands_ := [QueueItem.mk CommandType.PAIR [], QueueItem.mk CommandType.UNPAIR [],
          QueueItem.mk CommandType.PAIR [], QueueItem.mk CommandType.CUSTOM []] }
      demo_encoder rfl rfl (by decide)).1, by decide⟩,
    (enqueue_non_custom_replaces (plain_command CommandType.PAIR)
      (idle_controller (some demo_encoder)) demo_encoder rfl rfl (by decide)).2.2 rfl
      (fun _ => rfl) _ _ _ rfl rfl rfl⟩

/-- Claim C3. An accepted `enqueue` of a CUSTOM command evicts nothing: the
new queue is the old queue, in the same order, followed by one new CUSTOM
item. -/
theorem enqueue_custom_appends (cmd : Command) (s : BleAdvController)
    (enc : BleAdvEncoder) (henc : s.cur_encoder_ = some enc)
    (hsup : enc.is_supported cmd = true) (hk : cmd.main_cmd_ = CommandType.CUSTOM) :
    (enqueue cmd s).1 = true ∧
    ∃ item : QueueItem, item.cmd_type_ = CommandType.CUSTOM ∧
      (enqueue cmd s).2.commands_ = s.commands_ ++ [item] := by
  refine ⟨?_, new_item enc cmd s, hk, ?_⟩
  · rw [enqueue_accepted cmd s enc henc hsup]
  · rw [enqueue_accepted cmd s enc henc hsup]
    simp [kept_items, hk]

/-- Instance of C3: a queue [CUSTOM, PAIR, CUSTOM] receives a CUSTOM command. -/
theorem enqueue_custom_appends_witness :
    (enqueue (plain_command CommandType.CUSTOM)
      { idle_controller (some demo_encoder) with
        commands_ := [QueueItem.mk CommandType.CUSTOM [], QueueItem.mk CommandType.PAIR [],
          QueueItem.mk CommandType.CUSTOM []] }).1 = true ∧
    ∃ item : QueueItem, item.cmd_type_ = CommandType.CUSTOM ∧
      (enqueue (plain_command CommandType.CUSTOM)
        { idle_controller (some demo_encoder) with
          commands_ := [QueueItem.mk CommandType.CUSTOM [], QueueItem.mk CommandType.PAIR [],
            QueueItem.mk CommandType.CUSTOM []] }).2.commands_ =
        [QueueItem.mk CommandType.CUSTOM [], QueueItem.mk CommandType.PAIR [],
          QueueItem.mk CommandType.CUSTOM []] ++ [item] :=
  enqueue_custom_appends (plain_command CommandType.CUSTOM)
    { idle_controller (some demo_encoder) with
      commands_ := [QueueItem.mk CommandType.CUSTOM [], QueueItem.mk CommandType.PAIR [],
        QueueItem.mk CommandType.CUSTOM []] }
    demo_encoder rfl rfl rfl

/-- Claim C4. Without a selected encoder `enqueue` returns false; the queue,
the controller parameters (the rolling counter included, also above 120),
the scheduler state and every other member are unchanged, and the only
outgoing call is the warning: neither `is_supported` nor `encode` is called. -/
theorem enqueue_rejects_without_encoder (cmd : Command) (s : BleAdvController)
    (henc : s.cur_encoder_ = none) :
    (enqueue cmd s).1 = false ∧
    (enqueue cmd s).2 = { s with calls := s.calls ++ [Call.log_warning] } ∧
    (enqueue cmd s).2.commands_ = s.commands_ ∧
    (enqueue cmd s).2.params_.tx_count_ = s.params_.tx_count_ ∧
    (enqueue cmd s).2.adv_start_time_ = s.adv_start_time_ ∧
    (enqueue cmd s).2.adv_id_ = s.adv_id_ ∧
    ∀ c p, Call.encode c p ∈ (enqueue cmd s).2.calls → Call.encode c p ∈ s.calls := by
  rw [enqueue_no_encoder cmd s henc]
  refine ⟨rfl, rfl, rfl, rfl, rfl, rfl, ?_⟩
  intro c p h
  simpa using h

/-- Instance of C4: no encoder, a pending PAIR item and a rolling counter of 200. -/
theorem enqueue_rejects_without_encoder_witness :
    (enqueue (plain_command CommandType.PAIR)
      { idle_controller none with
        params_ := ControllerParam_t.mk 4660 200 1
        commands_ := [QueueItem.mk CommandType.PAIR []] }).2.commands_ =
      [QueueItem.mk CommandType.PAIR []] ∧
    (enqueue (plain_command CommandType.PAIR)
      { idle_controller none with
        params_ := ControllerParam_t.mk 4660 200 1
        commands_ := [QueueItem.mk CommandType.PAIR []] }).2.params_.tx_count_ = 200 :=
  ⟨(enqueue_rejects_without_encoder (plain_command CommandType.PAIR)
      { idle_controller none with
        params_ := ControllerParam_t.mk 4660 200 1
        commands_ := [QueueItem.mk CommandType.PAIR []] } rfl).2.2.1,
    by decide⟩

/-- Claim C5. When the selected encoder does not support the command,
`enqueue` returns false; the queue (nothing evicted, nothing appended), the
controller parameters (the rolling counter included, also above 120), the
scheduler state and every other member are unchanged; the outgoing calls are
the `is_supported` query and the warning, and `encode` is not called. -/
theorem enqueue_rejects_unsupported (cmd : Command) (s : BleAdvController)
    (enc : BleAdvEncoder) (henc : s.cur_encoder_ = some enc)
    (hsup : enc.is_supported cmd = false) :
    (enqueue cmd s).1 = false ∧
    (enqueue cmd s).2 =
      { s with calls := s.calls ++ [Call.is_supported cmd, Call.log_warning] } ∧
    (enqueue cmd s).2.commands_ = s.commands_ ∧
    (enqueue cmd s).2.params_.tx_count_ = s.params_.tx_count_ ∧
    (enqueue cmd s).2.adv_start_time_ = s.adv_start_time_ ∧
    (enqueue cmd s).2.adv_id_ = s.adv_id_ ∧
    ∀ c p, Call.encode c p ∈ (enqueue cmd s).2.calls → Call.encode c p ∈ s.calls := by
  rw [enqueue_unsupported cmd s enc henc hsup]
  refine ⟨rfl, rfl, rfl, rfl, rfl, rfl, ?_⟩
  intro c p h
  simpa using h

/-- Instance of C5: an encoder that supports only PAIR receives UNPAIR while an
UNPAIR item is pending and the rolling counter is 200. -/
theorem enqueue_rejects_unsupported_witness :
    (enqueue (plain_command CommandType.UNPAIR)
      { idle_controller (some pair_only_encoder) with
        params_ := ControllerParam_t.mk 4660 200 1
        commands_ := [QueueItem.mk CommandType.UNPAIR []] }).1 = false ∧
    (enqueue (plain_command CommandType.UNPAIR)
      { idle_controller (some pair_only_encoder) with
        params_ := ControllerParam_t.mk 4660 200 1
        commands_ := [QueueItem.mk CommandType.UNPAIR []] }).2.commands_ =
      [QueueItem.mk CommandType.UNPAIR []] :=
  ⟨(enqueue_rejects_unsupported (plain_command CommandType.UNPAIR)
      { idle_controller (some pair_only_encoder) with
        params_ := ControllerParam_t.mk 4660 200 1
        commands_ := [QueueItem.mk CommandType.UNPAIR []] } pair_only_encoder rfl rfl).1,
    (enqueue_rejects_unsupported (plain_command CommandType.UNPAIR)
      { idle_controller (some pair_only_encoder) with
        params_ := ControllerParam_t.mk 4660 200 1
        commands_ := [QueueItem.mk CommandType.UNPAIR []] } pair_only_encoder rfl rfl).2.2.1⟩

theorem enqueue_duration_eq (s : BleAdvController) :
    enqueue_duration s =
      if 0 < s.seq_duration_ ∧ s.seq_duration_ < get_min_tx_duration s then s.seq_duration_
      else get_min_tx_duration s := by
  have hmin : get_min_tx_duration s < 2 ^ 32 := by
    unfold get_min_tx_duration to_uint32
    exact Nat.mod_lt _ (by norm_num)
  unfold enqueue_duration
  by_cases h : 0 < s.seq_duration_ ∧ s.seq_duration_ < get_min_tx_duration s
  · have hlt : s.seq_duration_ < 2 ^ 32 := lt_trans h.2 hmin
    have hlt2 : s.seq_duration_ < 4294967296 := by simpa using hlt
    simp [h.1, h.2, to_uint32, Nat.mod_eq_of_lt hlt2]
  · rw [if_neg h]
    have hb : (decide (s.seq_duration_ > 0) &&
        decide (s.seq_duration_ < get_min_tx_duration s)) = false := by
      rcases not_and_or.mp h with h1 | h2
      · simp [h1]
      · simp [h2]
    simp only [hb, Bool.false_eq_true, if_false]
    exact Nat.mod_eq_of_lt hmin

theorem enqueue_duration_le (s : BleAdvController) :
    enqueue_duration s ≤ get_min_tx_duration s := by
  rw [enqueue_duration_eq]
  split
  · rename_i h
    exact le_of_lt h.2
  · exact le_refl _

/-- Claim C6. After an accepted `enqueue` the item at the tail of the queue
holds the payloads the encoder produced, each with the same duration `d`,
whatever duration the encoder wrote: `d` is the sequencing duration if it is
positive and below the minimum transmission duration, and the minimum
transmission duration otherwise; `d` never exceeds the minimum. With a minimum
of 100 and a sequencing duration of 50 all durations are 50; with a
sequencing duration of 0 they are all 100. -/
theorem enqueue_uniform_duration (cmd : Command) (s : BleAdvController)
    (enc : BleAdvEncoder) (henc : s.cur_encoder_ = some enc)
    (hsup : enc.is_supported cmd = true) :
    ∃ item : QueueItem, (enqueue cmd s).2.commands_.getLast? = some item ∧
      item.params_.map BleAdvParam.buf_ =
        (enc.encode [] cmd (ControllerParam_t.mk s.params_.id_
          (if s.params_.tx_count_ > 120 then 0 else s.params_.tx_count_)
          s.params_.index_)).1.map BleAdvParam.buf_ ∧
      (∀ p ∈ item.params_, p.duration_ =
        if 0 < s.seq_duration_ ∧ s.seq_duration_ < get_min_tx_duration s then s.seq_duration_
        else get_min_tx_duration s) ∧
      (∀ p ∈ item.params_, p.duration_ ≤ get_min_tx_duration s) ∧
      (get_min_tx_duration s = 100 → s.seq_duration_ = 50 →
        ∀ p ∈ item.params_, p.duration_ = 50) ∧
      (get_min_tx_duration s = 100 → s.seq_duration_ = 0 →
        ∀ p ∈ item.params_, p.duration_ = 100) := by
  have hdur : ∀ p ∈ (new_item enc cmd s).params_, p.duration_ = enqueue_duration s := by
    intro p hp
    simp only [new_item, List.mem_map] at hp
    obtain ⟨a, _, rfl⟩ := hp
    rfl
  refine ⟨new_item enc cmd s, ?_, ?_, ?_, ?_, ?_, ?_⟩
  · rw [enqueue_accepted cmd s enc henc hsup]
    simp
  · simp [new_item, rolled_params, List.map_map, Function.comp_def]
  · intro p hp
    rw [hdur p hp, enqueue_duration_eq]
  · intro p hp
    rw [hdur p hp]
    exact enqueue_duration_le s
  · intro hmin hseq p hp
    rw [hdur p hp, enqueue_duration_eq, hmin, hseq]
    simp
  · intro hmin hseq p hp
    rw [hdur p hp, enqueue_duration_eq, hmin, hseq]
    simp

/-- Instance of C6: minimum duration 100, sequencing duration 50, an encoder
that writes duration 7: the new item carries duration 50. -/
theorem enqueue_uniform_duration_witness :
    (∃ item : QueueItem,
      (enqueue (plain_command CommandType.PAIR)
        (idle_controller (some demo_encoder))).2.commands_.getLast? = some item ∧
      ∀ p ∈ item.params_, p.duration_ = 50) ∧
    (enqueue (plain_command CommandType.PAIR)
      (idle_controller (some demo_encoder))).2.commands_ =
      [QueueItem.mk CommandType.PAIR [BleAdvParam.mk [0, 0] 50]] ∧
    (enqueue (plain_command CommandType.PAIR)
      { idle_controller (some demo_encoder) with seq_duration_ := 0 }).2.commands_ =
      [QueueItem.mk CommandType.PAIR [BleAdvParam.mk [0, 0] 100]] :=
  ⟨(enqueue_uniform_duration (plain_command CommandType.PAIR)
      (idle_controller (some demo_encoder)) demo_encoder rfl rfl).imp
      (fun _ h => ⟨h.1, h.2.2.2.2.1 rfl rfl⟩),
    by decide, by decide⟩

/-- Claim C7. In an accepted `enqueue` the encoder is called once, with the
controller parameters of the call in which the rolling counter is 0 if it
exceeded 120 before the call and is unchanged otherwise, so the counter it
receives is at most 120; the controller parameters after the call are those
the encoder returned. -/
theorem enqueue_rolls_tx_count (cmd : Command) (s : BleAdvController)
    (enc : BleAdvEncoder) (henc : s.cur_encoder_ = some enc)
    (hsup : enc.is_supported cmd = true) :
    (enqueue cmd s).2.calls =
      s.calls ++ [Call.is_supported cmd,
        Call.encode cmd (ControllerParam_t.mk s.params_.id_
          (if s.params_.tx_count_ > 120 then 0 else s.params_.tx_count_) s.params_.index_)] ∧
    (if s.params_.tx_count_ > 120 then 0 else s.params_.tx_count_) ≤ 120 ∧
    (enqueue cmd s).2.params_ =
      (enc.encode [] cmd (ControllerParam_t.mk s.params_.id_
        (if s.params_.tx_count_ > 120 then 0 else s.params_.tx_count_) s.params_.index_)).2 := by
  rw [enqueue_accepted cmd s enc henc hsup]
  refine ⟨rfl, ?_, rfl⟩
  split
  · exact Nat.zero_le _
  · omega

/-- Instance of C7: a rolling counter of 200 reaches the encoder as 0, and the
demo encoder, which increments it, leaves 1. -/
theorem enqueue_rolls_tx_count_witness :
    (enqueue (plain_command CommandType.PAIR)
      { idle_controller (some demo_encoder) with
        params_ := ControllerParam_t.mk 4660 200 1 }).2.calls =
      [Call.is_supported (plain_command CommandType.PAIR),
        Call.encode (plain_command CommandType.PAIR) (ControllerParam_t.mk 4660 0 1)] ∧
    (enqueue (plain_command CommandType.PAIR)
      { idle_controller (some demo_encoder) with
        params_ := ControllerParam_t.mk 4660 200 1 }).2.params_ =
      ControllerParam_t.mk 4660 1 1 :=
  ⟨(enqueue_rolls_tx_count (plain_command CommandType.PAIR)
      { idle_controller (some demo_encoder) with
        params_ := ControllerParam_t.mk 4660 200 1 } demo_encoder rfl rfl).1,
    (enqueue_rolls_tx_count (plain_command CommandType.PAIR)
      { idle_controller (some demo_encoder) with
        params_ := ControllerParam_t.mk 4660 200 1 } demo_encoder rfl rfl).2.2⟩

/-! ## The scheduler: `loop` -/

/-- A tick in the idle state with a pending item: the head is popped, the rest
of the queue is kept, the radio start is the only outgoing call and receives
the payloads of the head, the returned handle and the clock value are
recorded. -/
theorem loop_idle_starts (now handle : Nat) (s : BleAdvController) (item : QueueItem)
    (rest : List QueueItem) (hidle : s.adv_start_time_ = 0) (hq : s.commands_ = item :: rest) :
    loop now handle s =
      { s with
        adv_id_ := handle
        adv_start_time_ := now
        commands_ := rest
        calls := s.calls ++ [Call.add_to_advertiser item.params_] } := by
  unfold loop
  rw [if_pos hidle]
  cases s with
  | mk e p n m q c a i l =>
    simp only at hq
    subst hq
    rfl

/-- A tick in the idle state with an empty queue does nothing. -/
theorem loop_idle_empty (now handle : Nat) (s : BleAdvController)
    (hidle : s.adv_start_time_ = 0) (hq : s.commands_ = []) : loop now handle s = s := by
  unfold loop
  rw [if_pos hidle]
  cases s with
  | mk e p n m q c a i l =>
    simp only at hq
    subst hq
    rfl

/-- A tick during a transmission whose 32-bit deadline has not been passed
does nothing. -/
theorem loop_transmitting_holds (now handle : Nat) (s : BleAdvController)
    (htx : s.adv_start_time_ ≠ 0)
    (hle : now ≤ (s.adv_start_time_ + loop_duration s) % 2 ^ 32) : loop now handle s = s := by
  unfold loop
  rw [if_neg htx, if_neg (not_lt.mpr hle)]

/-- A tick during a transmission whose deadline `start + window` fits in 32
bits and has not been passed leaves the controller as it is: no radio stop. -/
theorem loop_holds_within_window (now handle : Nat) (s : BleAdvController)
    (htx : s.adv_start_time_ ≠ 0) (hfit : s.adv_start_time_ + loop_duration s < 2 ^ 32)
    (hle : now ≤ s.adv_start_time_ + loop_duration s) : loop now handle s = s := by
  apply loop_transmitting_holds now handle s htx
  rw [Nat.mod_eq_of_lt hfit]
  exact hle

/-- Claim C8, evaluated where the clock reads 0. From the idle state with two
pending items, the tick at `now = 0` pops the head and starts the radio, but
the recorded start time is the idle value 0: the scheduler is still idle, and
the next tick starts the radio again, with the second item, although no radio
stop was issued for the first. -/
theorem loop_start_at_clock_zero_stays_idle :
    (loop 0 11
      { idle_controller none with
        commands_ := [QueueItem.mk CommandType.PAIR [BleAdvParam.mk [1] 50],
          QueueItem.mk CommandType.UNPAIR [BleAdvParam.mk [2] 50]] }).adv_start_time_ = 0 ∧
    (loop 0 11
      { idle_controller none with
        commands_ := [QueueItem.mk CommandType.PAIR [BleAdvParam.mk [1] 50],
          QueueItem.mk CommandType.UNPAIR [BleAdvParam.mk [2] 50]] }).calls =
      [Call.add_to_advertiser [BleAdvParam.mk [1] 50]] ∧
    (loop 16 12 (loop 0 11
      { idle_controller none with
        commands_ := [QueueItem.mk CommandType.PAIR [BleAdvParam.mk [1] 50],
          QueueItem.mk CommandType.UNPAIR [BleAdvParam.mk [2] 50]] })).calls =
      [Call.add_to_advertiser [BleAdvParam.mk [1] 50],
        Call.add_to_advertiser [BleAdvParam.mk [2] 50]] ∧
    (loop 16 12 (loop 0 11
      { idle_controller none with
        commands_ := [QueueItem.mk CommandType.PAIR [BleAdvParam.mk [1] 50],
          QueueItem.mk CommandType.UNPAIR [BleAdvParam.mk [2] 50]] })).adv_id_ = 12 := by
  decide

/-- Claim C9, evaluated across the wrap of the 32-bit clock. A transmission
started at 4294967286 with a window of 3000 ms is ticked 5 ms later, at
4294967291, which is not after `start_time + window`: the 32-bit sum is 2990,
the radio stop is issued and the scheduler returns to idle. -/
theorem loop_stops_early_when_deadline_wraps :
    (4294967291 : Nat) < 2 ^ 32 ∧
    loop_duration { idle_controller none with adv_start_time_ := 4294967286, adv_id_ := 11 } =
      3000 ∧
    (4294967291 : Nat) ≤ 4294967286 +
      loop_duration { idle_controller none with adv_start_time_ := 4294967286, adv_id_ := 11 } ∧
    (loop 4294967291 12
      { idle_controller none with adv_start_time_ := 4294967286, adv_id_ := 11 }).adv_start_time_
      = 0 ∧
    (loop 4294967291 12
      { idle_controller none with adv_start_time_ := 4294967286, adv_id_ := 11 }).calls =
      [Call.remove_from_advertiser 11] := by
  decide

/-- Claim C10. In the transmitting state, a tick at a clock value after
`start_time + window` calls the radio stop once, with the recorded handle,
and returns the scheduler to idle; the queue and every other member are
unchanged. The recorded handle is the one returned when the transmission
started: a start tick followed by such a tick issues the radio start and then
the radio stop with the handle the start returned. -/
theorem loop_stops_after_window (now handle : Nat) (s : BleAdvController)
    (hnow : now < 2 ^ 32) (htx : s.adv_start_time_ ≠ 0)
    (hexp : now > s.adv_start_time_ + loop_duration s) :
    loop now handle s =
      { s with
        adv_start_time_ := 0
        calls := s.calls ++ [Call.remove_from_advertiser s.adv_id_] } ∧
    (loop now handle s).adv_start_time_ = 0 ∧
    (loop now handle s).commands_ = s.commands_ ∧
    (loop now handle s).calls = s.calls ++ [Call.remove_from_advertiser s.adv_id_] ∧
    (∀ (s0 : BleAdvController) (item : QueueItem) (rest : List QueueItem) (t0 h0 : Nat),
      s0.adv_start_time_ = 0 → s0.commands_ = item :: rest → t0 ≠ 0 →
      now > t0 + loop_duration (loop t0 h0 s0) →
      (loop now handle (loop t0 h0 s0)).calls =
        s0.calls ++ [Call.add_to_advertiser item.params_, Call.remove_from_advertiser h0] ∧
      (loop now handle (loop t0 h0 s0)).adv_start_time_ = 0 ∧
      (loop now handle (loop t0 h0 s0)).commands_ = rest) := by
  have key : ∀ (u : BleAdvController), u.adv_start_time_ ≠ 0 →
      now > u.adv_start_time_ + loop_duration u →
      loop now handle u =
        { u with
          adv_start_time_ := 0
          calls := u.calls ++ [Call.remove_from_advertiser u.adv_id_] } := by
    intro u hu hgt
    have hfit : u.adv_start_time_ + loop_duration u < 2 ^ 32 := lt_trans hgt hnow
    unfold loop
    rw [if_neg hu, Nat.mod_eq_of_lt hfit, if_pos hgt]
  refine ⟨key s htx hexp, ?_, ?_, ?_, ?_⟩
  · rw [key s htx hexp]
  · rw [key s htx hexp]
  · rw [key s htx hexp]
  · intro s0 item rest t0 h0 hidle hq ht0 hgt
    have hstart := loop_idle_starts t0 h0 s0 item rest hidle hq
    have htx1 : (loop t0 h0 s0).adv_start_time_ ≠ 0 := by
      rw [hstart]; exact ht0
    have hgt1 : now > (loop t0 h0 s0).adv_start_time_ + loop_duration (loop t0 h0 s0) := by
      have : (loop t0 h0 s0).adv_start_time_ = t0 := by rw [hstart]
      rw [this]; exact hgt
    rw [key _ htx1 hgt1, hstart]
    simp

/-- Instance of C10: a transmission started at 1000 with handle 11, an empty
queue and a maximum duration of 3000 is ticked at 4001. -/
theorem loop_stops_after_window_witness :
    (loop 4001 12
      { idle_controller none with adv_start_time_ := 1000, adv_id_ := 11 }).adv_start_time_ = 0 ∧
    (loop 4001 12
      { idle_controller none with adv_start_time_ := 1000, adv_id_ := 11 }).calls =
      [] ++ [Call.remove_from_advertiser 11] :=
  ⟨(loop_stops_after_window 4001 12
      { idle_controller none with adv_start_time_ := 1000, adv_id_ := 11 }
      (by norm_num) (by decide) (by decide)).2.1,
    (loop_stops_after_window 4001 12
      { idle_controller none with adv_start_time_ := 1000, adv_id_ := 11 }
      (by norm_num) (by decide) (by decide)).2.2.2.1⟩

/-! ## The queue invariant along traces -/

/-- Normal form of `on_raw_inject`. -/
theorem on_raw_inject_eq (fresh : BleAdvParam) (raw : String) (s : BleAdvController) :
    on_raw_inject fresh raw s =
      { s with commands_ := s.commands_ ++
        [QueueItem.mk CommandType.CUSTOM [BleAdvParam.from_hex_string raw fresh]] } := by
  unfold on_raw_inject
  simp [modify_back_append_singleton, modify_back]

theorem loop_commands_sublist (now handle : Nat) (s : BleAdvController) :
    (loop now handle s).commands_.Sublist s.commands_ := by
  unfold loop
  split
  · split
    · exact List.Sublist.refl _
    · rename_i item rest hq
      rw [hq]
      exact List.sublist_cons_self item rest
  · split
    · exact List.Sublist.refl _
    · exact List.Sublist.refl _

theorem pending_ok_sublist (k : CommandType) (l1 l2 : List QueueItem) (acc : Option QueueItem)
    (hsub : l1.Sublist l2) (h : pending_ok k l2 acc) : pending_ok k l1 acc := by
  refine ⟨le_trans (List.Sublist.length_le (List.Sublist.filter _ hsub)) h.1, ?_⟩
  intro q hq hk
  exact h.2 q (hsub.subset hq) hk

theorem pending_ok_append_other (k : CommandType) (l : List QueueItem) (x : QueueItem)
    (acc : Option QueueItem) (hx : x.cmd_type_ ≠ k) (h : pending_ok k l acc) :
    pending_ok k (l ++ [x]) acc := by
  refine ⟨?_, ?_⟩
  · rw [List.filter_append]
    simpa [hx] using h.1
  · intro q hq hk
    rcases List.mem_append.mp hq with hq1 | hq2
    · exact h.2 q hq1 hk
    · rw [List.mem_singleton] at hq2
      subst hq2
      exact absurd hk hx

theorem pending_ok_replace (k : CommandType) (l : List QueueItem) (x : QueueItem)
    (hx : x.cmd_type_ = k) :
    pending_ok k (l.filter (fun q => decide (q.cmd_type_ ≠ k)) ++ [x]) (some x) := by
  have hnone : (l.filter (fun q => decide (q.cmd_type_ ≠ k))).filter
      (fun q => decide (q.cmd_type_ = k)) = [] := by
    rw [List.filter_filter, List.filter_eq_nil_iff]
    intro q _
    simp
  refine ⟨?_, ?_⟩
  · rw [List.filter_append, hnone]
    simp [hx]
  · intro q hq hk
    rcases List.mem_append.mp hq with hq1 | hq2
    · have := (List.mem_filter.mp hq1).2
      simp [hk] at this
    · rw [List.mem_singleton] at hq2
      rw [hq2]

theorem kept_items_sublist (k : CommandType) (l : List QueueItem) :
    (kept_items k l).Sublist l := by
  unfold kept_items
  split
  · exact List.filter_sublist l
  · exact List.Sublist.refl l

/-- One call preserves `pending_ok`, with the record of the created item
updated as in `latest_created`. -/
theorem pending_ok_enqueue (k : CommandType) (hk : k ≠ CommandType.CUSTOM) (cmd : Command)
    (s : BleAdvController) (acc : Option QueueItem) (h : pending_ok k s.commands_ acc) :
    pending_ok k (enqueue cmd s).2.commands_
      (if (enqueue cmd s).1 = true ∧ cmd.main_cmd_ = k then
        (enqueue cmd s).2.commands_.getLast?
      else acc) := by
  cases henc : s.cur_encoder_ with
  | none =>
    rw [enqueue_no_encoder cmd s henc]
    simpa using h
  | some enc =>
    cases hsup : enc.is_supported cmd with
    | false =>
      rw [enqueue_unsupported cmd s enc henc hsup]
      simpa using h
    | true =>
      rw [enqueue_accepted cmd s enc henc hsup]
      by_cases hkind : cmd.main_cmd_ = k
      · have hne : cmd.main_cmd_ ≠ CommandType.CUSTOM := by rw [hkind]; exact hk
        have hlast : (kept_items cmd.main_cmd_ s.commands_ ++ [new_item enc cmd s]).getLast? =
            some (new_item enc cmd s) := by simp
        simp only [hkind, and_self, if_true] at hlast ⊢
        rw [hlast]
        have hkept : kept_items k s.commands_ =
            s.commands_.filter (fun q => decide (q.cmd_type_ ≠ k)) := by
          unfold kept_items
          rw [if_pos hk]
        rw [hkept]
        exact pending_ok_replace k s.commands_ (new_item enc cmd s) hkind
      · simp only [hkind, and_false, if_false]
        exact pending_ok_append_other k _ _ acc hkind
          (pending_ok_sublist k _ _ acc (kept_items_sublist _ _) h)

theorem pending_ok_run (k : CommandType) (hk : k ≠ CommandType.CUSTOM) (ops : List Op) :
    ∀ (s : BleAdvController) (acc : Option QueueItem), pending_ok k s.commands_ acc →
      pending_ok k (run ops s).commands_ (latest_created k ops s acc) := by
  induction ops with
  | nil =>
    intro s acc h
    exact h
  | cons op ops ih =>
    intro s acc h
    cases op with
    | enqueue cmd =>
      exact ih _ _ (pending_ok_enqueue k hk cmd s acc h)
    | on_raw_inject fresh raw =>
      refine ih _ _ ?_
      show pending_ok k (on_raw_inject fresh raw s).commands_ acc
      rw [on_raw_inject_eq]
      exact pending_ok_append_other k _ _ acc (fun e => hk e.symm) h
    | loop now handle =>
      refine ih _ _ ?_
      exact pending_ok_sublist k _ _ acc (loop_commands_sublist now handle s) h

/-- Claim C2. After any sequence of `enqueue`, `on_raw_inject` and `loop` calls
made from a controller with an empty queue, the queue holds at most one item
of each kind other than CUSTOM, and a pending item of such a kind is the item
created by the most recent accepted `enqueue` of that kind. -/
theorem queue_one_pending_per_kind (s0 : BleAdvController) (hempty : s0.commands_ = [])
    (ops : List Op) (k : CommandType) (hk : k ≠ CommandType.CUSTOM) :
    ((run ops s0).commands_.filter (fun q => decide (q.cmd_type_ = k))).length ≤ 1 ∧
    ∀ q ∈ (run ops s0).commands_, q.cmd_type_ = k → latest_created k ops s0 none = some q := by
  apply pending_ok_run k hk ops s0 none
  rw [hempty]
  exact ⟨by simp, by simp⟩

/-- Instance of C2: after `demo_trace` the queue is [CUSTOM, UNPAIR, PAIR, CUSTOM]
(the first PAIR item was popped by the tick), and the pending PAIR item is the
one created by the second PAIR command. -/
theorem queue_one_pending_per_kind_witness :
    (run demo_trace (idle_controller (some demo_encoder))).commands_ =
      [QueueItem.mk CommandType.CUSTOM [BleAdvParam.mk [170, 187, 204] 100],
        QueueItem.mk CommandType.UNPAIR [BleAdvParam.mk [1, 0] 50],
        QueueItem.mk CommandType.PAIR [BleAdvParam.mk [2, 9] 50],
        QueueItem.mk CommandType.CUSTOM [BleAdvParam.mk [1, 2] 100]] ∧
    latest_created CommandType.PAIR demo_trace (idle_controller (some demo_encoder)) none =
      some (QueueItem.mk CommandType.PAIR [BleAdvParam.mk [2, 9] 50]) ∧
    ((run demo_trace (idle_controller (some demo_encoder))).commands_.filter
      (fun q => decide (q.cmd_type_ = CommandType.PAIR))).length ≤ 1 :=
  ⟨by decide, by decide,
    (queue_one_pending_per_kind (idle_controller (some demo_encoder)) rfl demo_trace
      CommandType.PAIR (by decide)).1⟩

/-! ## The window of the scheduler -/

/-- In the transmitting state the tick stops the transmission exactly when the
clock value exceeds the 32-bit sum of the start time and the window. -/
theorem loop_stop_iff (now handle : Nat) (s : BleAdvController) (htx : s.adv_start_time_ ≠ 0) :
    (loop now handle s).adv_start_time_ = 0 ↔
      now > (s.adv_start_time_ + loop_duration s) % 2 ^ 32 := by
  unfold loop
  rw [if_neg htx]
  by_cases h : now > (s.adv_start_time_ + loop_duration s) % 2 ^ 32
  · rw [if_pos h]
    exact ⟨fun _ => h, fun _ => rfl⟩
  · rw [if_neg h]
    exact ⟨fun e => absurd e htx, fun e => absurd e h⟩

theorem loop_duration_congr (s1 s2 : BleAdvController)
    (hmax : s2.max_tx_duration_ = s1.max_tx_duration_)
    (hnum : s2.number_duration_ = s1.number_duration_)
    (hq : s2.commands_ = [] ↔ s1.commands_ = []) : loop_duration s2 = loop_duration s1 := by
  unfold loop_duration
  rw [hmax, hnum]
  by_cases h : s1.commands_ = []
  · simp [h, hq.mpr h]
  · have h2 : s2.commands_ ≠ [] := fun e => h (hq.mp e)
    simp [h, h2]

theorem loop_stop_congr (now handle : Nat) (s1 s2 : BleAdvController)
    (htx : s1.adv_start_time_ ≠ 0) (hst : s2.adv_start_time_ = s1.adv_start_time_)
    (hmax : s2.max_tx_duration_ = s1.max_tx_duration_)
    (hnum : s2.number_duration_ = s1.number_duration_)
    (hq : s2.commands_ = [] ↔ s1.commands_ = []) :
    (loop now handle s2).adv_start_time_ = 0 ↔ (loop now handle s1).adv_start_time_ = 0 := by
  have htx2 : s2.adv_start_time_ ≠ 0 := by rw [hst]; exact htx
  rw [loop_stop_iff now handle s2 htx2, loop_stop_iff now handle s1 htx, hst,
    loop_duration_congr s1 s2 hmax hnum hq]

/-- Claim C13. In the transmitting state the window of the expiry test is the
maximum transmission duration when the queue is empty at the tick and the
state of the duration number when it is not. The decision to stop depends only
on the clock, the start time, these two settings and whether the queue is
empty: the payload durations of the item on air (and of the pending items)
play no part. -/
theorem loop_window_choice (now handle : Nat) (s : BleAdvController)
    (htx : s.adv_start_time_ ≠ 0) (hmax : s.max_tx_duration_ < 2 ^ 32)
    (hnum : s.number_duration_.state < 2 ^ 32) :
    (s.commands_ = [] →
      loop_duration s = s.max_tx_duration_ ∧
      ((loop now handle s).adv_start_time_ = 0 ↔
        now > (s.adv_start_time_ + s.max_tx_duration_) % 2 ^ 32)) ∧
    (s.commands_ ≠ [] →
      loop_duration s = s.number_duration_.state ∧
      ((loop now handle s).adv_start_time_ = 0 ↔
        now > (s.adv_start_time_ + s.number_duration_.state) % 2 ^ 32)) ∧
    (∀ s2 : BleAdvController, s2.adv_start_time_ = s.adv_start_time_ →
      s2.max_tx_duration_ = s.max_tx_duration_ → s2.number_duration_ = s.number_duration_ →
      (s2.commands_ = [] ↔ s.commands_ = []) →
      ((loop now handle s2).adv_start_time_ = 0 ↔ (loop now handle s).adv_start_time_ = 0)) ∧
    (∀ (item1 item2 : QueueItem) (rest : List QueueItem) (t0 h0 : Nat), t0 ≠ 0 →
      ((loop now handle (loop t0 h0
          { s with adv_start_time_ := 0, commands_ := item1 :: rest })).adv_start_time_ = 0 ↔
        (loop now handle (loop t0 h0
          { s with adv_start_time_ := 0, commands_ := item2 :: rest })).adv_start_time_ = 0)) := by
  refine ⟨?_, ?_, ?_, ?_⟩
  · intro hq
    have hd : loop_duration s = s.max_tx_duration_ := by
      unfold loop_duration to_uint32
      simp only [hq, List.isEmpty_nil, if_true]
      exact Nat.mod_eq_of_lt hmax
    refine ⟨hd, ?_⟩
    rw [loop_stop_iff now handle s htx, hd]
  · intro hq
    have hd : loop_duration s = s.number_duration_.state := by
      unfold loop_duration to_uint32
      have he : s.commands_.isEmpty = false := by
        cases hc : s.commands_ with
        | nil => exact absurd hc hq
        | cons a r => rfl
      simp only [he, Bool.false_eq_true, if_false]
      exact Nat.mod_eq_of_lt hnum
    refine ⟨hd, ?_⟩
    rw [loop_stop_iff now handle s htx, hd]
  · intro s2 hst hm hn hq
    exact loop_stop_congr now handle s s2 htx hst hm hn hq
  · intro item1 item2 rest t0 h0 ht0
    rw [loop_idle_starts t0 h0 { s with adv_start_time_ := 0, commands_ := item1 :: rest }
        item1 rest rfl rfl,
      loop_idle_starts t0 h0 { s with adv_start_time_ := 0, commands_ := item2 :: rest }
        item2 rest rfl rfl]
    exact loop_stop_congr now handle _ _ ht0 rfl rfl rfl Iff.rfl

/-- Instance of C13: a transmission started at 1000, maximum duration 3000,
number state 100. With an empty queue the tick at 1200 holds; with a pending
item the tick at 1200 stops. -/
theorem loop_window_choice_witness :
    (loop 1200 12
      { idle_controller none with adv_start_time_ := 1000, adv_id_ := 11 }).adv_start_time_ =
      1000 ∧
    (loop 1200 12
      { idle_controller none with
        adv_start_time_ := 1000, adv_id_ := 11
        commands_ := [QueueItem.mk CommandType.PAIR [BleAdvParam.mk [1] 5000]] }).adv_start_time_
      = 0 ∧
    loop_duration { idle_controller none with adv_start_time_ := 1000, adv_id_ := 11 } = 3000 :=
  ⟨by decide, by decide,
    ((loop_window_choice 1200 12
      { idle_controller none with adv_start_time_ := 1000, adv_id_ := 11 }
      (by decide) (by norm_num [idle_controller]) (by norm_num [idle_controller])).1 rfl).1⟩

/-! ## Raw injection -/

/-- Claim C14. For every controller (with or without an encoder) and every
string, `on_raw_inject` appends one CUSTOM item at the tail of the queue and
changes nothing else: no pending item is evicted, no call leaves the
controller (neither `is_supported` nor `encode`), the controller parameters
keep their value. The item holds one payload, the hex decoding of the string
when the string decodes; "AABBCC" gives the bytes 170, 187, 204. -/
theorem on_raw_inject_appends_custom (fresh : BleAdvParam) (raw : String)
    (s : BleAdvController) :
    on_raw_inject fresh raw s =
      { s with commands_ := s.commands_ ++
        [QueueItem.mk CommandType.CUSTOM [BleAdvParam.from_hex_string raw fresh]] } ∧
    (∃ (item : QueueItem) (param : BleAdvParam),
      (on_raw_inject fresh raw s).commands_ = s.commands_ ++ [item] ∧
      item.cmd_type_ = CommandType.CUSTOM ∧ item.params_ = [param] ∧
      ∀ bytes, parse_hex raw.toList = some bytes → param.buf_ = bytes) ∧
    (on_raw_inject fresh raw s).calls = s.calls ∧
    (on_raw_inject fresh raw s).params_ = s.params_ ∧
    (on_raw_inject fresh raw s).cur_encoder_ = s.cur_encoder_ ∧
    (on_raw_inject fresh "AABBCC" s).commands_ =
      s.commands_ ++
        [QueueItem.mk CommandType.CUSTOM [BleAdvParam.mk [170, 187, 204] fresh.duration_]] := by
  refine ⟨on_raw_inject_eq fresh raw s, ?_, ?_, ?_, ?_, ?_⟩
  · refine ⟨QueueItem.mk CommandType.CUSTOM [BleAdvParam.from_hex_string raw fresh],
      BleAdvParam.from_hex_string raw fresh, ?_, rfl, rfl, ?_⟩
    · rw [on_raw_inject_eq]
    · intro bytes hb
      unfold BleAdvParam.from_hex_string
      rw [hb]
  · rw [on_raw_inject_eq]
  · rw [on_raw_inject_eq]
  · rw [on_raw_inject_eq]
  · rw [on_raw_inject_eq]
    have hp : parse_hex "AABBCC".toList = some [170, 187, 204] := by decide
    have hf : BleAdvParam.from_hex_string "AABBCC" fresh =
        BleAdvParam.mk [170, 187, 204] fresh.duration_ := by
      unfold BleAdvParam.from_hex_string
      rw [hp]
    rw [hf]

/-- Instance of C14: "AABBCC" is injected into a controller without encoder
that holds a pending CUSTOM item and a pending PAIR item. -/
theorem on_raw_inject_appends_custom_witness :
    (on_raw_inject (BleAdvParam.mk [] 100) "AABBCC"
      { idle_controller none with
        commands_ := [QueueItem.mk CommandType.CUSTOM [], QueueItem.mk CommandType.PAIR []] }
      ).commands_ =
      [QueueItem.mk CommandType.CUSTOM [], QueueItem.mk CommandType.PAIR []] ++
        [QueueItem.mk CommandType.CUSTOM [BleAdvParam.mk [170, 187, 204] 100]] ∧
    (on_raw_inject (BleAdvParam.mk [] 100) "AABBCC"
      { idle_controller none with
        commands_ := [QueueItem.mk CommandType.CUSTOM [], QueueItem.mk CommandType.PAIR []] }
      ).calls = [] :=
  ⟨(on_raw_inject_appends_custom (BleAdvParam.mk [] 100) "AABBCC"
      { idle_controller none with
        commands_ := [QueueItem.mk CommandType.CUSTOM [], QueueItem.mk CommandType.PAIR []] }
      ).2.2.2.2.2,
    (on_raw_inject_appends_custom (BleAdvParam.mk [] 100) "AABBCC"
      { idle_controller none with
        commands_ := [QueueItem.mk CommandType.CUSTOM [], QueueItem.mk CommandType.PAIR []] }
      ).2.2.1⟩

/-! ## Radio calls of the dispatcher and of one tick -/

/-- The calls a single `enqueue` adds are not radio calls, and the scheduler
state is untouched. -/
theorem enqueue_radio_frame (cmd : Command) (s : BleAdvController) :
    (enqueue cmd s).2.adv_start_time_ = s.adv_start_time_ ∧
    (enqueue cmd s).2.adv_id_ = s.adv_id_ ∧
    ∃ extra : List Call, (enqueue cmd s).2.calls = s.calls ++ extra ∧
      ∀ c ∈ extra, c.is_radio = false := by
  cases henc : s.cur_encoder_ with
  | none =>
    rw [enqueue_no_encoder cmd s henc]
    refine ⟨rfl, rfl, [Call.log_warning], rfl, ?_⟩
    intro c hc
    rw [List.mem_singleton] at hc
    rw [hc]; rfl
  | some enc =>
    cases hsup : enc.is_supported cmd with
    | false =>
      rw [enqueue_unsupported cmd s enc henc hsup]
      refine ⟨rfl, rfl, [Call.is_supported cmd, Call.log_warning], rfl, ?_⟩
      intro c hc
      simp only [List.mem_cons, List.mem_singleton, List.not_mem_nil, or_false] at hc
      rcases hc with h | h <;> rw [h] <;> rfl
    | true =>
      rw [enqueue_accepted cmd s enc henc hsup]
      refine ⟨rfl, rfl,
        [Call.is_supported cmd, Call.encode cmd (rolled_params s.params_)], rfl, ?_⟩
      intro c hc
      simp only [List.mem_cons, List.mem_singleton, List.not_mem_nil, or_false] at hc
      rcases hc with h | h <;> rw [h] <;> rfl

/-- The calls of one tick: none, one radio start, or one radio stop with the
recorded handle; a radio stop only in the transmitting state after the 32-bit
deadline, a radio start only in the idle state. -/
theorem loop_calls_cases (now handle : Nat) (s : BleAdvController) :
    (loop now handle s).calls = s.calls ∨
    (s.adv_start_time_ = 0 ∧
      ∃ item rest, s.commands_ = item :: rest ∧
        (loop now handle s).calls = s.calls ++ [Call.add_to_advertiser item.params_]) ∨
    (s.adv_start_time_ ≠ 0 ∧ now > (s.adv_start_time_ + loop_duration s) % 2 ^ 32 ∧
      (loop now handle s).adv_start_time_ = 0 ∧
      (loop now handle s).calls = s.calls ++ [Call.remove_from_advertiser s.adv_id_]) := by
  by_cases hidle : s.adv_start_time_ = 0
  · cases hq : s.commands_ with
    | nil =>
      left
      rw [loop_idle_empty now handle s hidle hq]
    | cons item rest =>
      right; left
      refine ⟨hidle, item, rest, rfl, ?_⟩
      rw [loop_idle_starts now handle s item rest hidle hq]
  · by_cases h : now > (s.adv_start_time_ + loop_duration s) % 2 ^ 32
    · right; right
      refine ⟨hidle, h, ?_, ?_⟩
      · unfold loop
        rw [if_neg hidle, if_pos h]
      · unfold loop
        rw [if_neg hidle, if_pos h]
    · left
      rw [loop_transmitting_holds now handle s hidle (not_lt.mp h)]

theorem started_append (l1 l2 : List Call) : started (l1 ++ l2) = started l1 ++ started l2 := by
  induction l1 with
  | nil => rfl
  | cons c r ih =>
    cases c <;> simp [started, ih]

theorem loop_transmitting_commands (now handle : Nat) (s : BleAdvController)
    (htx : s.adv_start_time_ ≠ 0) : (loop now handle s).commands_ = s.commands_ := by
  unfold loop
  rw [if_neg htx]
  split <;> rfl

/-- Claim C15. `enqueue`, accepted or rejected, and `on_raw_inject` leave
`adv_start_time_` and `adv_id_` unchanged and add no call to
`add_to_advertiser` or `remove_from_advertiser`. Among the calls on the
controller only `loop` issues radio calls, and a transmission ends only in the
expiry branch of `loop`, when the clock exceeds the 32-bit deadline. -/
theorem dispatch_no_radio_io (cmd : Command) (fresh : BleAdvParam) (raw : String)
    (s : BleAdvController) :
    ((enqueue cmd s).2.adv_start_time_ = s.adv_start_time_ ∧
      (enqueue cmd s).2.adv_id_ = s.adv_id_ ∧
      ∃ extra : List Call, (enqueue cmd s).2.calls = s.calls ++ extra ∧
        ∀ c ∈ extra, c.is_radio = false) ∧
    ((on_raw_inject fresh raw s).adv_start_time_ = s.adv_start_time_ ∧
      (on_raw_inject fresh raw s).adv_id_ = s.adv_id_ ∧
      (on_raw_inject fresh raw s).calls = s.calls) ∧
    (∀ op : Op, ∃ extra : List Call, (step s op).calls = s.calls ++ extra ∧
      ∀ c ∈ extra, c.is_radio = true → ∃ now handle, op = Op.loop now handle) ∧
    (∀ op : Op, s.adv_start_time_ ≠ 0 → (step s op).adv_start_time_ = 0 →
      ∃ now handle, op = Op.loop now handle ∧
        now > (s.adv_start_time_ + loop_duration s) % 2 ^ 32) := by
  have hinj : (on_raw_inject fresh raw s).adv_start_time_ = s.adv_start_time_ ∧
      (on_raw_inject fresh raw s).adv_id_ = s.adv_id_ ∧
      (on_raw_inject fresh raw s).calls = s.calls := by
    rw [on_raw_inject_eq]
    exact ⟨rfl, rfl, rfl⟩
  refine ⟨enqueue_radio_frame cmd s, hinj, ?_, ?_⟩
  · intro op
    cases op with
    | enqueue c =>
      obtain ⟨_, _, extra, he, hr⟩ := enqueue_radio_frame c s
      refine ⟨extra, he, ?_⟩
      intro x hx hrad
      rw [hr x hx] at hrad
      exact absurd hrad (by decide)
    | on_raw_inject f r =>
      refine ⟨[], ?_, ?_⟩
      · show (on_raw_inject f r s).calls = s.calls ++ []
        rw [on_raw_inject_eq, List.append_nil]
      · intro x hx
        exact absurd hx (List.not_mem_nil x)
    | loop now handle =>
      rcases loop_calls_cases now handle s with h | ⟨_, item, rest, _, h⟩ | ⟨_, _, _, h⟩
      · exact ⟨[], by rw [List.append_nil]; exact h, fun x hx => absurd hx (List.not_mem_nil x)⟩
      · exact ⟨_, h, fun _ _ _ => ⟨now, handle, rfl⟩⟩
      · exact ⟨_, h, fun _ _ _ => ⟨now, handle, rfl⟩⟩
  · intro op htx hstop
    cases op with
    | enqueue c =>
      have h := (enqueue_radio_frame c s).1
      exact absurd (h.symm.trans hstop) htx
    | on_raw_inject f r =>
      have h : (on_raw_inject f r s).adv_start_time_ = s.adv_start_time_ := by
        rw [on_raw_inject_eq]
      exact absurd (h.symm.trans hstop) htx
    | loop now handle =>
      exact ⟨now, handle, rfl, (loop_stop_iff now handle s htx).mp hstop⟩

/-- Instance of C15: an accepted PAIR command and a raw injection during a
transmission started at 1000 with handle 11. -/
theorem dispatch_no_radio_io_witness :
    (enqueue (plain_command CommandType.PAIR)
      { idle_controller (some demo_encoder) with
        adv_start_time_ := 1000, adv_id_ := 11 }).2.adv_start_time_ = 1000 ∧
    (on_raw_inject (BleAdvParam.mk [] 100) "AABBCC"
      { idle_controller (some demo_encoder) with
        adv_start_time_ := 1000, adv_id_ := 11 }).calls = [] ∧
    (enqueue (plain_command CommandType.PAIR)
      { idle_controller (some demo_encoder) with
        adv_start_time_ := 1000, adv_id_ := 11 }).2.calls =
      [Call.is_supported (plain_command CommandType.PAIR),
        Call.encode (plain_command CommandType.PAIR) (ControllerParam_t.mk 4660 0 1)] :=
  ⟨(dispatch_no_radio_io (plain_command CommandType.PAIR) (BleAdvParam.mk [] 100) "AABBCC"
      { idle_controller (some demo_encoder) with adv_start_time_ := 1000, adv_id_ := 11 }).1.1,
    (dispatch_no_radio_io (plain_command CommandType.PAIR) (BleAdvParam.mk [] 100) "AABBCC"
      { idle_controller (some demo_encoder) with
        adv_start_time_ := 1000, adv_id_ := 11 }).2.1.2.2,
    by decide⟩

/-- Claim C18. One call of `loop` adds at most one call, a radio start or a
radio stop, never both. A tick in the transmitting state does not modify the
queue and does not start the radio: after the tick that stops a transmission
the next pending item is still in the queue, to be started by a later tick. -/
theorem loop_single_radio_call (now handle : Nat) (s : BleAdvController) :
    (∃ extra : List Call, (loop now handle s).calls = s.calls ++ extra ∧ extra.length ≤ 1) ∧
    (s.adv_start_time_ = 0 →
      (loop now handle s).calls = s.calls ∨
      ∃ item rest, s.commands_ = item :: rest ∧
        (loop now handle s).calls = s.calls ++ [Call.add_to_advertiser item.params_]) ∧
    (s.adv_start_time_ ≠ 0 →
      (loop now handle s).commands_ = s.commands_ ∧
      started (loop now handle s).calls = started s.calls ∧
      ((loop now handle s).calls = s.calls ∨
        (loop now handle s).calls = s.calls ++ [Call.remove_from_advertiser s.adv_id_])) := by
  refine ⟨?_, ?_, ?_⟩
  · rcases loop_calls_cases now handle s with h | ⟨_, item, rest, _, h⟩ | ⟨_, _, _, h⟩
    · exact ⟨[], by rw [List.append_nil]; exact h, by simp⟩
    · exact ⟨_, h, by simp⟩
    · exact ⟨_, h, by simp⟩
  · intro hidle
    rcases loop_calls_cases now handle s with h | ⟨_, item, rest, hq, h⟩ | ⟨htx, _⟩
    · exact Or.inl h
    · exact Or.inr ⟨item, rest, hq, h⟩
    · exact absurd hidle htx
  · intro htx
    have hc : (loop now handle s).calls = s.calls ∨
        (loop now handle s).calls = s.calls ++ [Call.remove_from_advertiser s.adv_id_] := by
      rcases loop_calls_cases now handle s with h | ⟨hidle, _⟩ | ⟨_, _, _, h⟩
      · exact Or.inl h
      · exact absurd hidle htx
      · exact Or.inr h
    refine ⟨loop_transmitting_commands now handle s htx, ?_, hc⟩
    rcases hc with h | h
    · rw [h]
    · rw [h, started_append]
      simp [started]

/-- Instance of C18: the tick at 4001 stops the transmission started at 1000
and leaves the pending item in the queue; the next tick starts it. -/
theorem loop_single_radio_call_witness :
    (loop 4001 12
      { idle_controller none with
        adv_start_time_ := 1000, adv_id_ := 11, number_duration_ := BleAdvNumber.mk 3000
        commands_ := [QueueItem.mk CommandType.PAIR [BleAdvParam.mk [1] 50]] }).commands_ =
      [QueueItem.mk CommandType.PAIR [BleAdvParam.mk [1] 50]] ∧
    (loop 4001 12
      { idle_controller none with
        adv_start_time_ := 1000, adv_id_ := 11, number_duration_ := BleAdvNumber.mk 3000
        commands_ := [QueueItem.mk CommandType.PAIR [BleAdvParam.mk [1] 50]] }).calls =
      [Call.remove_from_advertiser 11] ∧
    (loop 4017 12 (loop 4001 12
      { idle_controller none with
        adv_start_time_ := 1000, adv_id_ := 11, number_duration_ := BleAdvNumber.mk 3000
        commands_ := [QueueItem.mk CommandType.PAIR [BleAdvParam.mk [1] 50]] })).calls =
      [Call.remove_from_advertiser 11, Call.add_to_advertiser [BleAdvParam.mk [1] 50]] :=
  ⟨((loop_single_radio_call 4001 12
      { idle_controller none with
        adv_start_time_ := 1000, adv_id_ := 11, number_duration_ := BleAdvNumber.mk 3000
        commands_ := [QueueItem.mk CommandType.PAIR [BleAdvParam.mk [1] 50]] }).2.2
      (by decide)).1,
    by decide, by decide⟩

/-! ## The deadline and the wrap of the clock -/

/-- While neither the clock nor the deadline has wrapped, the test of `loop`
agrees with the wrap-safe test on the elapsed time. -/
theorem loop_deadline_agrees_without_wrap (now handle : Nat) (s : BleAdvController)
    (htx : s.adv_start_time_ ≠ 0) (hnow : now < 2 ^ 32) (hle : s.adv_start_time_ ≤ now)
    (hfit : s.adv_start_time_ + loop_duration s < 2 ^ 32) :
    (loop now handle s).adv_start_time_ = 0 ↔
      elapsed_wrap_safe now s.adv_start_time_ > loop_duration s := by
  rw [loop_stop_iff now handle s htx, Nat.mod_eq_of_lt hfit]
  have he : elapsed_wrap_safe now s.adv_start_time_ = now - s.adv_start_time_ := by
    unfold elapsed_wrap_safe
    have h1 : now + 2 ^ 32 - s.adv_start_time_ = (now - s.adv_start_time_) + 2 ^ 32 := by omega
    rw [h1, Nat.add_mod_right]
    exact Nat.mod_eq_of_lt (lt_of_le_of_lt (Nat.sub_le _ _) hnow)
  rw [he]
  omega

/-- Claim C11, evaluated around the wrap of the 32-bit clock. A transmission
started at 4294967000 with a window of 3000 ms is stopped by the tick at
4294967100, when the wrap-safe elapsed time is 100 ms; a transmission started
at 4294960000 is not stopped by a tick at clock value 100, after the wrap,
when the wrap-safe elapsed time is 7396 ms. -/
theorem loop_deadline_not_wrap_safe :
    loop_duration { idle_controller none with adv_start_time_ := 4294967000, adv_id_ := 11 } =
      3000 ∧
    elapsed_wrap_safe 4294967100 4294967000 = 100 ∧
    (loop 4294967100 12
      { idle_controller none with adv_start_time_ := 4294967000, adv_id_ := 11 }).adv_start_time_
      = 0 ∧
    (loop 4294967100 12
      { idle_controller none with adv_start_time_ := 4294967000, adv_id_ := 11 }).calls =
      [Call.remove_from_advertiser 11] ∧
    elapsed_wrap_safe 100 4294960000 = 7396 ∧
    (loop 100 12
      { idle_controller none with adv_start_time_ := 4294960000, adv_id_ := 11 }).adv_start_time_
      = 4294960000 ∧
    (loop 100 12
      { idle_controller none with adv_start_time_ := 4294960000, adv_id_ := 11 }).calls = [] := by
  decide

/-! ## Advertisements on air along traces -/

theorem on_air_append_singleton (l : List Call) (c : Call) :
    on_air (l ++ [c]) =
      match c with
      | Call.add_to_advertiser _ => on_air l + 1
      | Call.remove_from_advertiser _ => on_air l - 1
      | _ => on_air l := by
  unfold on_air
  rw [List.foldl_append]
  cases c <;> rfl

theorem on_air_append_other (l extra : List Call) (h : ∀ c ∈ extra, c.is_radio = false) :
    on_air (l ++ extra) = on_air l := by
  induction extra using List.reverseRecOn with
  | nil => rw [List.append_nil]
  | append_singleton r c ih =>
    have hr : ∀ x ∈ r, x.is_radio = false := fun x hx => h x (List.mem_append_left _ hx)
    have hc : c.is_radio = false := h c (List.mem_append_right _ (List.mem_singleton_self c))
    rw [← List.append_assoc, on_air_append_singleton, ih hr]
    cases c <;> first | rfl | exact absurd hc (by simp [Call.is_radio])

/-- One call with a non-zero clock value keeps the number of advertisements on
air equal to 1 in the transmitting state and to 0 in the idle state. -/
theorem on_air_step (s : BleAdvController) (op : Op) (hop : op.clock_nonzero)
    (h : on_air s.calls = if s.adv_start_time_ = 0 then 0 else 1) :
    on_air (step s op).calls = if (step s op).adv_start_time_ = 0 then 0 else 1 := by
  cases op with
  | enqueue cmd =>
    obtain ⟨hst, _, extra, he, hr⟩ := enqueue_radio_frame cmd s
    show on_air (enqueue cmd s).2.calls = if (enqueue cmd s).2.adv_start_time_ = 0 then 0 else 1
    rw [he, hst, on_air_append_other _ _ hr]
    exact h
  | on_raw_inject fresh raw =>
    show on_air (on_raw_inject fresh raw s).calls =
      if (on_raw_inject fresh raw s).adv_start_time_ = 0 then 0 else 1
    rw [on_raw_inject_eq]
    exact h
  | loop now handle =>
    have hnow : now ≠ 0 := hop
    show on_air (loop now handle s).calls = if (loop now handle s).adv_start_time_ = 0 then 0 else 1
    by_cases hidle : s.adv_start_time_ = 0
    · rw [if_pos hidle] at h
      cases hq : s.commands_ with
      | nil =>
        rw [loop_idle_empty now handle s hidle hq, if_pos hidle]
        exact h
      | cons item rest =>
        rw [loop_idle_starts now handle s item rest hidle hq]
        simp only [on_air_append_singleton, h, if_neg hnow]
    · rw [if_neg hidle] at h
      by_cases hexp : now > (s.adv_start_time_ + loop_duration s) % 2 ^ 32
      · have hl : loop now handle s =
            { s with
              adv_start_time_ := 0
              calls := s.calls ++ [Call.remove_from_advertiser s.adv_id_] } := by
          unfold loop
          rw [if_neg hidle, if_pos hexp]
        rw [hl]
        simp only [on_air_append_singleton, h, if_true]
      · rw [loop_transmitting_holds now handle s hidle (not_lt.mp hexp), if_neg hidle]
        exact h

/-- Along every trace whose ticks all read a non-zero clock, from a state with
nothing on air, at most one advertisement is on air, and one is on air exactly
in the transmitting state. -/
theorem on_air_run_clock_nonzero (ops : List Op) :
    ∀ s : BleAdvController, (∀ op ∈ ops, op.clock_nonzero) →
      on_air s.calls = (if s.adv_start_time_ = 0 then 0 else 1) →
      on_air (run ops s).calls = if (run ops s).adv_start_time_ = 0 then 0 else 1 := by
  induction ops with
  | nil =>
    intro s _ h
    exact h
  | cons op ops ih =>
    intro s hops h
    exact ih (step s op) (fun o ho => hops o (List.mem_cons_of_mem _ ho))
      (on_air_step s op (hops op (List.mem_cons_self _ _)) h)

/-- Claim C12, evaluated on a trace with a tick at clock value 0. From the
initial idle state two commands are enqueued; the tick at clock value 0 starts
the radio, and the scheduler is idle while one advertisement is on air; the
next tick starts the radio again although no radio stop matched the first
start: two advertisements are on air. -/
theorem two_advertisements_on_air_after_clock_zero :
    (run [Op.enqueue (plain_command CommandType.PAIR),
        Op.enqueue (plain_command CommandType.UNPAIR), Op.loop 0 11]
      (idle_controller (some demo_encoder))).adv_start_time_ = 0 ∧
    on_air (run [Op.enqueue (plain_command CommandType.PAIR),
        Op.enqueue (plain_command CommandType.UNPAIR), Op.loop 0 11]
      (idle_controller (some demo_encoder))).calls = 1 ∧
    ((run [Op.enqueue (plain_command CommandType.PAIR),
        Op.enqueue (plain_command CommandType.UNPAIR), Op.loop 0 11, Op.loop 16 12]
      (idle_controller (some demo_encoder))).calls.filter Call.is_radio) =
      [Call.add_to_advertiser [BleAdvParam.mk [0, 0] 50],
        Call.add_to_advertiser [BleAdvParam.mk [1, 0] 50]] ∧
    on_air (run [Op.enqueue (plain_command CommandType.PAIR),
        Op.enqueue (plain_command CommandType.UNPAIR), Op.loop 0 11, Op.loop 16 12]
      (idle_controller (some demo_encoder))).calls = 2 := by
  decide

/-! ## Consumption of the queue -/

/-- One tick either leaves the queue and the started payloads as they are, or
pops the head of the queue and starts exactly its payloads. -/
theorem loop_consumes (now handle : Nat) (s : BleAdvController) :
    ((loop now handle s).commands_ = s.commands_ ∧
      started (loop now handle s).calls = started s.calls) ∨
    ∃ item rest, s.commands_ = item :: rest ∧ (loop now handle s).commands_ = rest ∧
      started (loop now handle s).calls = started s.calls ++ [item.params_] := by
  by_cases hidle : s.adv_start_time_ = 0
  · cases hq : s.commands_ with
    | nil =>
      left
      rw [loop_idle_empty now handle s hidle hq]
      exact ⟨hq, rfl⟩
    | cons item rest =>
      right
      refine ⟨item, rest, rfl, ?_, ?_⟩
      · rw [loop_idle_starts now handle s item rest hidle hq]
      · rw [loop_idle_starts now handle s item rest hidle hq]
        simp [started_append, started]
  · left
    refine ⟨loop_transmitting_commands now handle s hidle, ?_⟩
    rcases loop_calls_cases now handle s with h | ⟨h0, _⟩ | ⟨_, _, _, h⟩
    · rw [h]
    · exact absurd h0 hidle
    · rw [h, started_append]
      simp [started]

/-- Claim C16. For every queue and every sequence of `loop` calls with no other
call in between, there is a number `n` of consumed items: the payload lists
passed to `add_to_advertiser` by these ticks are those of the first `n` items
of the queue, in queue order, and the queue left is the queue without its
first `n` items. So every item is handed to the radio at most once and a
popped item does not come back. -/
theorem run_loops_fifo (ticks : List (Nat × Nat)) (s : BleAdvController) :
    ∃ n : Nat, n ≤ s.commands_.length ∧
      (run_loops ticks s).commands_ = s.commands_.drop n ∧
      started (run_loops ticks s).calls =
        started s.calls ++ (s.commands_.take n).map QueueItem.params_ ∧
      s.commands_ = s.commands_.take n ++ (run_loops ticks s).commands_ := by
  induction ticks generalizing s with
  | nil =>
    refine ⟨0, Nat.zero_le _, ?_, ?_, ?_⟩
    · simp [run_loops]
    · simp [run_loops]
    · simp [run_loops]
  | cons t ts ih =>
    have hrun : run_loops (t :: ts) s = run_loops ts (loop t.1 t.2 s) := rfl
    obtain ⟨n, hn, hq, hs, _⟩ := ih (loop t.1 t.2 s)
    rcases loop_consumes t.1 t.2 s with ⟨hc, hst⟩ | ⟨item, rest, hc0, hc, hst⟩
    · rw [hc] at hn hq hs
      rw [hst] at hs
      refine ⟨n, hn, ?_, ?_, ?_⟩
      · rw [hrun, hq]
      · rw [hrun, hs]
      · rw [hrun, hq, List.take_append_drop]
    · rw [hc] at hn hq hs
      rw [hst] at hs
      refine ⟨n + 1, ?_, ?_, ?_, ?_⟩
      · rw [hc0]
        simpa using hn
      · rw [hrun, hq, hc0]
        rfl
      · rw [hrun, hs, hc0]
        simp
      · rw [hrun, hq, hc0]
        simp

/-- Instance of C16: three pending items and five ticks; the first two items are
started, in order, and the third is left in the queue. -/
theorem run_loops_fifo_witness :
    started (run_loops [(5, 1), (10, 2), (4000, 3), (4010, 4), (4020, 5)]
      { idle_controller none with
        commands_ := [QueueItem.mk CommandType.PAIR [BleAdvParam.mk [1] 50],
          QueueItem.mk CommandType.CUSTOM [BleAdvParam.mk [2] 50],
          QueueItem.mk CommandType.UNPAIR [BleAdvParam.mk [3] 50]] }).calls =
      [[BleAdvParam.mk [1] 50], [BleAdvParam.mk [2] 50]] ∧
    (run_loops [(5, 1), (10, 2), (4000, 3), (4010, 4), (4020, 5)]
      { idle_controller none with
        commands_ := [QueueItem.mk CommandType.PAIR [BleAdvParam.mk [1] 50],
          QueueItem.mk CommandType.CUSTOM [BleAdvParam.mk [2] 50],
          QueueItem.mk CommandType.UNPAIR [BleAdvParam.mk [3] 50]] }).commands_ =
      [QueueItem.mk CommandType.UNPAIR [BleAdvParam.mk [3] 50]] ∧
    ∃ n : Nat, n ≤ 3 ∧
      (run_loops [(5, 1), (10, 2), (4000, 3), (4010, 4), (4020, 5)]
        { idle_controller none with
          commands_ := [QueueItem.mk CommandType.PAIR [BleAdvParam.mk [1] 50],
            QueueItem.mk CommandType.CUSTOM [BleAdvParam.mk [2] 50],
            QueueItem.mk CommandType.UNPAIR [BleAdvParam.mk [3] 50]] }).commands_ =
        [QueueItem.mk CommandType.PAIR [BleAdvParam.mk [1] 50],
          QueueItem.mk CommandType.CUSTOM [BleAdvParam.mk [2] 50],
          QueueItem.mk CommandType.UNPAIR [BleAdvParam.mk [3] 50]].drop n :=
  ⟨by decide, by decide,
    (run_loops_fifo [(5, 1), (10, 2), (4000, 3), (4010, 4), (4020, 5)]
      { idle_controller none with
        commands_ := [QueueItem.mk CommandType.PAIR [BleAdvParam.mk [1] 50],
          QueueItem.mk CommandType.CUSTOM [BleAdvParam.mk [2] 50],
          QueueItem.mk CommandType.UNPAIR [BleAdvParam.mk [3] 50]] }).imp
      (fun _ h => ⟨h.1, h.2.1⟩)⟩

/-! ## Restoring the selection -/

theorem sub_init_scan_none (fnv1_hash : String → Nat) (restored : Nat) (options : List String)
    (h : ∀ opt ∈ options, to_uint32 (fnv1_hash opt) ≠ restored) :
    sub_init_scan fnv1_hash restored options = none := by
  induction options with
  | nil => rfl
  | cons o r ih =>
    unfold sub_init_scan
    rw [if_neg (h o (List.mem_cons_self _ _))]
    exact ih (fun x hx => h x (List.mem_cons_of_mem _ hx))

theorem sub_init_scan_first (fnv1_hash : String → Nat) (restored : Nat) (opt : String) :
    ∀ (options : List String) (i : Nat), options[i]? = some opt →
      to_uint32 (fnv1_hash opt) = restored →
      (∀ j o, j < i → options[j]? = some o → to_uint32 (fnv1_hash o) ≠ restored) →
      sub_init_scan fnv1_hash restored options = some opt := by
  intro options
  induction options with
  | nil =>
    intro i hi _ _
    simp at hi
  | cons x r ih =>
    intro i hi hopt hearlier
    cases i with
    | zero =>
      simp only [List.getElem?_cons_zero, Option.some.injEq] at hi
      subst hi
      unfold sub_init_scan
      rw [if_pos hopt]
    | succ k =>
      have hx : to_uint32 (fnv1_hash x) ≠ restored :=
        hearlier 0 x (Nat.succ_pos k) List.getElem?_cons_zero
      unfold sub_init_scan
      rw [if_neg hx]
      rw [List.getElem?_cons_succ] at hi
      refine ih k hi hopt ?_
      intro j o hj ho
      exact hearlier (j + 1) o (Nat.succ_lt_succ hj) (by rw [List.getElem?_cons_succ]; exact ho)

/-- The select after `sub_init` when the slot holds `restored` and the option at
index `i` is the first one whose hash is `restored`. -/
theorem sub_init_first (fnv1_hash : String → Nat) (sel : BleAdvSelect) (restored : Nat)
    (opt : String) (i : Nat) (hload : sel.rtc_ = some restored)
    (hi : sel.options[i]? = some opt) (hopt : to_uint32 (fnv1_hash opt) = restored)
    (hearlier : ∀ j o, j < i → sel.options[j]? = some o →
      to_uint32 (fnv1_hash o) ≠ restored) :
    BleAdvSelect.sub_init fnv1_hash sel = { sel with state := opt } := by
  unfold BleAdvSelect.sub_init
  rw [hload]
  simp only [sub_init_scan_first fnv1_hash restored opt sel.options i hi hopt hearlier]

/-- Claim C17. `sub_init` leaves the select unchanged when the load of the
preference fails and when no option has a hash equal to the loaded value;
otherwise the state becomes the first option, in option order, whose hash is
the loaded value. So after `control v` has stored the hash of `v`, `sub_init`
on a select with the same options sets the state to `v`, whenever `v` is an
option and no earlier option has the same hash. -/
theorem sub_init_restores_by_hash (fnv1_hash : String → Nat) (sel : BleAdvSelect) :
    (sel.rtc_ = none → BleAdvSelect.sub_init fnv1_hash sel = sel) ∧
    (∀ restored : Nat, sel.rtc_ = some restored →
      (∀ opt ∈ sel.options, to_uint32 (fnv1_hash opt) ≠ restored) →
      BleAdvSelect.sub_init fnv1_hash sel = sel) ∧
    (∀ (restored : Nat) (opt : String) (i : Nat), sel.rtc_ = some restored →
      sel.options[i]? = some opt → to_uint32 (fnv1_hash opt) = restored →
      (∀ (j : Nat) (o : String), j < i → sel.options[j]? = some o →
        to_uint32 (fnv1_hash o) ≠ restored) →
      BleAdvSelect.sub_init fnv1_hash sel = { sel with state := opt }) ∧
    (∀ (v : String) (i : Nat), sel.options[i]? = some v →
      (∀ (j : Nat) (o : String), j < i → sel.options[j]? = some o →
        to_uint32 (fnv1_hash o) ≠ to_uint32 (fnv1_hash v)) →
      (BleAdvSelect.sub_init fnv1_hash (BleAdvSelect.control fnv1_hash v sel)).state = v ∧
      ∀ sel2 : BleAdvSelect, sel2.options = sel.options →
        sel2.rtc_ = (BleAdvSelect.control fnv1_hash v sel).rtc_ →
        (BleAdvSelect.sub_init fnv1_hash sel2).state = v) := by
  refine ⟨?_, ?_, ?_, ?_⟩
  · intro hnone
    unfold BleAdvSelect.sub_init
    rw [hnone]
  · intro restored hload hmiss
    unfold BleAdvSelect.sub_init
    rw [hload]
    simp only [sub_init_scan_none fnv1_hash restored sel.options hmiss]
  · intro restored opt i hload hi hopt hearlier
    exact sub_init_first fnv1_hash sel restored opt i hload hi hopt hearlier
  · intro v i hi hearlier
    have key : ∀ sel2 : BleAdvSelect, sel2.options = sel.options →
        sel2.rtc_ = (BleAdvSelect.control fnv1_hash v sel).rtc_ →
        (BleAdvSelect.sub_init fnv1_hash sel2).state = v := by
      intro sel2 hopts hrtc
      have hload : sel2.rtc_ = some (to_uint32 (fnv1_hash v)) := by
        rw [hrtc]; rfl
      rw [sub_init_first fnv1_hash sel2 (to_uint32 (fnv1_hash v)) v i hload
        (by rw [hopts]; exact hi) rfl (by rw [hopts]; exact hearlier)]
    exact ⟨key _ rfl rfl, key⟩

/-- Instance of C17 with the options "ab", "ba", "c" and a hash under which "ab"
and "ba" collide: "c" is restored; after `control "ba"` the first option with
that hash, "ab", is restored; a stored value that no option has leaves the
state. -/
theorem sub_init_restores_by_hash_witness :
    (BleAdvSelect.sub_init demo_hash (BleAdvSelect.control demo_hash "c" demo_select)).state =
      "c" ∧
    (BleAdvSelect.sub_init demo_hash (BleAdvSelect.control demo_hash "ba" demo_select)).state =
      "ab" ∧
    BleAdvSelect.sub_init demo_hash { demo_select with rtc_ := some 7 } =
      { demo_select with rtc_ := some 7 } ∧
    BleAdvSelect.sub_init demo_hash demo_select = demo_select :=
  ⟨((sub_init_restores_by_hash demo_hash demo_select).2.2.2 "c" 2 (by decide)
      (by
        intro j o hj ho
        interval_cases j
        · simp only [demo_select, List.getElem?_cons_zero, Option.some.injEq] at ho
          subst ho
          decide
        · simp only [demo_select, List.getElem?_cons_succ, List.getElem?_cons_zero,
            Option.some.injEq] at ho
          subst ho
          decide)).1,
    by decide,
    (sub_init_restores_by_hash demo_hash { demo_select with rtc_ := some 7 }).2.1 7 rfl
      (by decide),
    (sub_init_restores_by_hash demo_hash demo_select).1 rfl⟩

/-! ## The entity command -/

/-- The copy loop with `k` iterations from index `i` stays within `args` and
within the array, and overwrites exactly the slots `i`, ..., `i + k - 1`. -/
theorem copy_args_spec (args : List Nat) :
    ∀ (k i : Nat) (cmd : Command), i + k ≤ args.length → i + k ≤ cmd.args_.length →
      ∃ cmd1 : Command, copy_args args k i cmd = some cmd1 ∧
        cmd1.main_cmd_ = cmd.main_cmd_ ∧ cmd1.cmd_ = cmd.cmd_ ∧
        cmd1.args_.length = cmd.args_.length ∧
        ∀ j : Nat, cmd1.args_[j]? = if i ≤ j ∧ j < i + k then args[j]? else cmd.args_[j]? := by
  intro k
  induction k with
  | zero =>
    intro i cmd _ _
    refine ⟨cmd, rfl, rfl, rfl, rfl, ?_⟩
    intro j
    have hno : ¬ (i ≤ j ∧ j < i + 0) := by omega
    rw [if_neg hno]
  | succ k ih =>
    intro i cmd ha hc
    have hia : i < args.length := by omega
    have hic : i < cmd.args_.length := by omega
    have hget : args[i]? = some (args[i]) := List.getElem?_eq_getElem hia
    obtain ⟨cmd1, hrun, hkind, hop, hlen, hslots⟩ :=
      ih (i + 1) { cmd with args_ := cmd.args_.set i (args[i]) }
        (by omega) (by simp only [List.length_set]; omega)
    refine ⟨cmd1, ?_, hkind, hop, ?_, ?_⟩
    · unfold copy_args
      rw [hget]
      simp only [if_pos hic]
      exact hrun
    · rw [hlen]
      simp only [List.length_set]
    · intro j
      rw [hslots j]
      simp only [List.getElem?_set]
      by_cases hji : i = j
      · subst hji
        have h1 : ¬ (i + 1 ≤ i ∧ i < i + 1 + k) := by omega
        have h2 : i ≤ i ∧ i < i + (k + 1) := by omega
        rw [if_neg h1, if_pos h2, if_pos rfl, if_pos hic, hget]
      · by_cases hin : i + 1 ≤ j ∧ j < i + 1 + k
        · have h2 : i ≤ j ∧ j < i + (k + 1) := by omega
          rw [if_pos hin, if_pos h2]
        · have h2 : ¬ (i ≤ j ∧ j < i + (k + 1)) := by omega
          rw [if_neg hin, if_neg h2, if_neg hji]

/-- Claim C19. For every argument list, `BleAdvEntity::command` returns (no
index leaves `args` or the four-slot array `args_`), and what it returns is
the result of one call of the `enqueue` of the parent on a command of the
given kind, with the default opcode, whose slot `i` holds `args[i]` for every
`i` below the smaller of the length of `args` and 4 and the default of the
constructor in the other slots; arguments from the fifth on are ignored. -/
theorem command_copies_at_most_four (dflt_cmd : Nat) (dflt_args : List Nat)
    (cmd_type : CommandType) (args : List Nat) (parent : BleAdvController)
    (hlen : dflt_args.length = 4) :
    ∃ cmd : Command,
      BleAdvEntity.command dflt_cmd dflt_args cmd_type args parent =
        some (enqueue cmd parent) ∧
      cmd.main_cmd_ = cmd_type ∧ cmd.cmd_ = dflt_cmd ∧ cmd.args_.length = 4 ∧
      (∀ i : Nat, i < min args.length 4 → cmd.args_[i]? = args[i]?) ∧
      (∀ i : Nat, min args.length 4 ≤ i → cmd.args_[i]? = dflt_args[i]?) ∧
      BleAdvEntity.command dflt_cmd dflt_args cmd_type args parent =
        BleAdvEntity.command dflt_cmd dflt_args cmd_type (args.take 4) parent := by
  have hmain : ∀ l : List Nat, ∃ cmd : Command,
      BleAdvEntity.command dflt_cmd dflt_args cmd_type l parent = some (enqueue cmd parent) ∧
      cmd.main_cmd_ = cmd_type ∧ cmd.cmd_ = dflt_cmd ∧ cmd.args_.length = 4 ∧
      ∀ j : Nat, cmd.args_[j]? = if j < min l.length 4 then l[j]? else dflt_args[j]? := by
    intro l
    obtain ⟨cmd1, hrun, hkind, hop, hl, hslots⟩ :=
      copy_args_spec l (min l.length 4) 0 (Command.construct dflt_cmd dflt_args cmd_type)
        (by simp) (by simp [Command.construct, hlen])
    refine ⟨cmd1, ?_, hkind, hop, ?_, ?_⟩
    · unfold BleAdvEntity.command
      simp only [hrun]
    · rw [hl]
      exact hlen
    · intro j
      rw [hslots j]
      simp only [Nat.zero_le, true_and, Nat.zero_add]
      rfl
  obtain ⟨cmd, hcmd, hkind, hop, hl, hslots⟩ := hmain args
  refine ⟨cmd, hcmd, hkind, hop, hl, ?_, ?_, ?_⟩
  · intro i hi
    rw [hslots i, if_pos hi]
  · intro i hi
    rw [hslots i, if_neg (not_lt.mpr hi)]
  · obtain ⟨c2, h2, k2, o2, _, s2⟩ := hmain (args.take 4)
    have hc : cmd = c2 := by
      cases cmd with
      | mk m1 p1 a1 =>
        cases c2 with
        | mk m2 p2 a2 =>
          simp only at hkind hop k2 o2 hslots s2
          subst hkind hop k2 o2
          congr 1
          apply List.ext_getElem?
          intro j
          rw [hslots j, s2 j]
          simp only [List.length_take, List.getElem?_take]
          by_cases hj : j < min args.length 4
          · have e2 : j < min (min 4 args.length) 4 := by omega
            have e3 : j < 4 := by omega
            rw [if_pos hj, if_pos e2, if_pos e3]
          · have e2 : ¬ j < min (min 4 args.length) 4 := by omega
            rw [if_neg hj, if_neg e2]
    rw [hcmd, h2, hc]

/-- Instance of C19 with defaults 0: six arguments, of which the first four are
copied, and two arguments, after which the last two slots keep the default. -/
theorem command_copies_at_most_four_witness :
    BleAdvEntity.command 0 [0, 0, 0, 0] CommandType.CUSTOM [1, 2, 3, 4, 5, 6]
        (idle_controller (some demo_encoder)) =
      some (enqueue (Command.mk CommandType.CUSTOM 0 [1, 2, 3, 4])
        (idle_controller (some demo_encoder))) ∧
    BleAdvEntity.command_values 0 [0, 0, 0, 0] CommandType.PAIR 8 9
        (idle_controller (some demo_encoder)) =
      some (enqueue (Command.mk CommandType.PAIR 0 [8, 9, 0, 0])
        (idle_controller (some demo_encoder))) ∧
    (BleAdvEntity.command 0 [0, 0, 0, 0] CommandType.CUSTOM []
        (idle_controller (some demo_encoder))).isSome = true ∧
    ∃ cmd : Command,
      BleAdvEntity.command 0 [0, 0, 0, 0] CommandType.CUSTOM [1, 2, 3, 4, 5, 6]
        (idle_controller (some demo_encoder)) =
        some (enqueue cmd (idle_controller (some demo_encoder))) ∧
      cmd.main_cmd_ = CommandType.CUSTOM :=
  ⟨rfl, rfl, rfl,
    (command_copies_at_most_four 0 [0, 0, 0, 0] CommandType.CUSTOM [1, 2, 3, 4, 5, 6]
      (idle_controller (some demo_encoder)) rfl).imp (fun _ h => ⟨h.1, h.2.1⟩)⟩

end bleadvcontroller
